import Mathlib

/-!
# Verification of the cache-aware matrix transpose routines (`trans.c`)

This file shallowly embeds the C source `src/trans.c` in Lean 4.

Memory model: matrices live in flat row-major buffers, exactly as the
spec's data model prescribes ("Addressing A[i][j] yields the element at
byte offset 4·(i·cols + j) from the buffer base").  A state `St` carries
the flat contents of `A` (read-only in the source) and of `B`, together
with the trace of accesses performed so far.  `A[i][j]` is `a (i*M+j)`
for the declared shape `int A[N][M]`, and `B[j][i]` is `b (j*N+i)` for
`int B[M][N]`.

The trace field `tr` records one entry per A-read and per B-write, in
reverse program order (the most recent access is at the head; consumers
that need program order use `tr.reverse`).

C `for` loops with additive step are embedded as structurally recursive
functions over the exact iteration count: `for (j = 0; j < M; j += 4)`
performs `(M+3)/4` iterations with `j = 0, 4, 8, ...`, and the embedding
recurses on that count while threading `j`.
-/

namespace TransC

/-- A single memory access: a read of `A[r][c]` or a write of `B[r][c]`. -/
inductive Acc where
  | rdA : Nat → Nat → Acc
  | wrB : Nat → Nat → Acc
deriving DecidableEq, Repr

/-- Program state: flat contents of `A` and `B` plus the access trace
(most recent access first). -/
structure St where
  a : Nat → Int
  b : Nat → Int
  tr : List Acc

/-- Pointwise store into a flat buffer. -/
def wr (b : Nat → Int) (k : Nat) (v : Int) : Nat → Int :=
  fun n => if n = k then v else b n

/-! ## `trans` — the baseline row-wise scan transpose (src/trans.c:49-60) -/

/-- Body of the inner loop of `trans`: `tmp = A[i][j]; B[j][i] = tmp;`. -/
def transStep (M N i j : Nat) (s : St) : St :=
  let tmp := s.a (i*M + j)
  { s with b := wr s.b (j*N + i) tmp,
           tr := Acc.wrB j i :: Acc.rdA i j :: s.tr }

/-- `for (j = 0; j < M; j++)` of `trans`, as `n` remaining iterations. -/
def transInner (M N i : Nat) : Nat → Nat → St → St
  | 0, _, s => s
  | n+1, j, s =>
    match transStep M N i j s with
    | ⟨a, b, tr⟩ => transInner M N i n (j+1) ⟨a, b, tr⟩

/-- `for (i = 0; i < N; i++)` of `trans`. -/
def transOuter (M N : Nat) : Nat → Nat → St → St
  | 0, _, s => s
  | n+1, i, s =>
    match transInner M N i M 0 s with
    | ⟨a, b, tr⟩ => transOuter M N n (i+1) ⟨a, b, tr⟩

/-- `trans(M, N, A, B)` (src/trans.c:49-60). -/
def trans (M N : Nat) (s : St) : St :=
  transOuter M N N 0 s

/-! ## `transpose32x32` (src/trans.c:62-88) -/

/-- Body of the `k` loop of `transpose32x32`: read `A[k][j..j+7]` into
`c0..c7`, then store them to `B[j..j+7][k]`. -/
def t32Step (M N i j k : Nat) (s : St) : St :=
  let c0 := s.a (k*M + j)
  let c1 := s.a (k*M + (j+1))
  let c2 := s.a (k*M + (j+2))
  let c3 := s.a (k*M + (j+3))
  let c4 := s.a (k*M + (j+4))
  let c5 := s.a (k*M + (j+5))
  let c6 := s.a (k*M + (j+6))
  let c7 := s.a (k*M + (j+7))
  { s with
    b := wr (wr (wr (wr (wr (wr (wr (wr s.b
           (j*N + k) c0) ((j+1)*N + k) c1) ((j+2)*N + k) c2) ((j+3)*N + k) c3)
           ((j+4)*N + k) c4) ((j+5)*N + k) c5) ((j+6)*N + k) c6) ((j+7)*N + k) c7,
    tr := Acc.wrB (j+7) k :: Acc.wrB (j+6) k :: Acc.wrB (j+5) k ::
          Acc.wrB (j+4) k :: Acc.wrB (j+3) k :: Acc.wrB (j+2) k ::
          Acc.wrB (j+1) k :: Acc.wrB j k ::
          Acc.rdA k (j+7) :: Acc.rdA k (j+6) :: Acc.rdA k (j+5) ::
          Acc.rdA k (j+4) :: Acc.rdA k (j+3) :: Acc.rdA k (j+2) ::
          Acc.rdA k (j+1) :: Acc.rdA k j :: s.tr }

/-- `for (k = i; k < i+8; k++)` of `transpose32x32`. -/
def t32Block (M N i j : Nat) : Nat → Nat → St → St
  | 0, _, s => s
  | n+1, k, s =>
    match t32Step M N i j k s with
    | ⟨a, b, tr⟩ => t32Block M N i j n (k+1) ⟨a, b, tr⟩

/-- `for (j = 0; j < M; j += 8)` of `transpose32x32`. -/
def t32Cols (M N i : Nat) : Nat → Nat → St → St
  | 0, _, s => s
  | n+1, j, s =>
    match t32Block M N i j 8 i s with
    | ⟨a, b, tr⟩ => t32Cols M N i n (j+8) ⟨a, b, tr⟩

/-- `for (i = 0; i < N; i += 8)` of `transpose32x32`. -/
def t32Rows (M N : Nat) : Nat → Nat → St → St
  | 0, _, s => s
  | n+1, i, s =>
    match t32Cols M N i ((M+7)/8) 0 s with
    | ⟨a, b, tr⟩ => t32Rows M N n (i+8) ⟨a, b, tr⟩

/-- `transpose32x32(M, N, A, B)` (src/trans.c:62-88). -/
def transpose32x32 (M N : Nat) (s : St) : St :=
  t32Rows M N ((N+7)/8) 0 s

/-! ## `transpose32x64` (src/trans.c:90-123) -/

/-- Shared body of both inner loops of `transpose32x64`: read
`A[k][j..j+3]` into `c0..c3`, store them to `B[j..j+3][k]`.
(The two C branches duplicate this body textually.) -/
def t3264Step (M N i j k : Nat) (s : St) : St :=
  let c0 := s.a (k*M + j)
  let c1 := s.a (k*M + (j+1))
  let c2 := s.a (k*M + (j+2))
  let c3 := s.a (k*M + (j+3))
  { s with
    b := wr (wr (wr (wr s.b
           (j*N + k) c0) ((j+1)*N + k) c1) ((j+2)*N + k) c2) ((j+3)*N + k) c3,
    tr := Acc.wrB (j+3) k :: Acc.wrB (j+2) k :: Acc.wrB (j+1) k ::
          Acc.wrB j k ::
          Acc.rdA k (j+3) :: Acc.rdA k (j+2) :: Acc.rdA k (j+1) ::
          Acc.rdA k j :: s.tr }

/-- `for (k = i; k < i+8; k++)` (the even-stripe branch of `transpose32x64`). -/
def t3264Asc (M N i j : Nat) : Nat → Nat → St → St
  | 0, _, s => s
  | n+1, k, s =>
    match t3264Step M N i j k s with
    | ⟨a, b, tr⟩ => t3264Asc M N i j n (k+1) ⟨a, b, tr⟩

/-- `for (k = i+7; k >= i; k--)` (the odd-stripe branch of `transpose32x64`). -/
def t3264Desc (M N i j : Nat) : Nat → Nat → St → St
  | 0, _, s => s
  | n+1, k, s =>
    match t3264Step M N i j k s with
    | ⟨a, b, tr⟩ => t3264Desc M N i j n (k-1) ⟨a, b, tr⟩

/-- One 4-column stripe of `transpose32x64`, with direction chosen by
`(j/4) % 2`. -/
def t3264Stripe (M N i j : Nat) (s : St) : St :=
  if (j/4) % 2 = 0 then t3264Asc M N i j 8 i s else t3264Desc M N i j 8 (i+7) s

/-- `for (j = 0; j < M; j += 4)` of `transpose32x64`. -/
def t3264Cols (M N i : Nat) : Nat → Nat → St → St
  | 0, _, s => s
  | n+1, j, s =>
    match t3264Stripe M N i j s with
    | ⟨a, b, tr⟩ => t3264Cols M N i n (j+4) ⟨a, b, tr⟩

/-- `for (i = 0; i < N; i += 8)` of `transpose32x64`. -/
def t3264Rows (M N : Nat) : Nat → Nat → St → St
  | 0, _, s => s
  | n+1, i, s =>
    match t3264Cols M N i ((M+3)/4) 0 s with
    | ⟨a, b, tr⟩ => t3264Rows M N n (i+8) ⟨a, b, tr⟩

/-- `transpose32x64(M, N, A, B)` (src/trans.c:90-123). -/
def transpose32x64 (M N : Nat) (s : St) : St :=
  t3264Rows M N ((N+7)/8) 0 s

/-! ## `transpose64x64` (src/trans.c:125-174)

Its state additionally holds the carry scalars `c4..c7`, which survive
from an even stripe into the following odd stripe.  (In C they are
uninitialized locals; the embedding starts them at `0`, and the proofs
show every read of the carry is preceded by a write in the same stripe
pair.) -/

/-- State of `transpose64x64`: memory, carry scalars `c4..c7`, trace. -/
structure St64 where
  a : Nat → Int
  b : Nat → Int
  c4 : Int
  c5 : Int
  c6 : Int
  c7 : Int
  tr : List Acc

/-- Even-stripe body of `transpose64x64` (src/trans.c:131-148): read
`A[k][j..j+3]` into `c0..c3`; when `k == i+1` additionally read
`A[k][j+4..j+7]` into the carry `c4..c7`; store `c0..c3` to
`B[j..j+3][k]`. -/
def t64StepE (M N i j k : Nat) (s : St64) : St64 :=
  let c0 := s.a (k*M + j)
  let c1 := s.a (k*M + (j+1))
  let c2 := s.a (k*M + (j+2))
  let c3 := s.a (k*M + (j+3))
  let s1 : St64 :=
    { s with tr := Acc.rdA k (j+3) :: Acc.rdA k (j+2) :: Acc.rdA k (j+1) ::
                   Acc.rdA k j :: s.tr }
  let s2 : St64 :=
    if k = i+1 then
      { s1 with c4 := s.a (k*M + (j+4)), c5 := s.a (k*M + (j+5)),
                c6 := s.a (k*M + (j+6)), c7 := s.a (k*M + (j+7)),
                tr := Acc.rdA k (j+7) :: Acc.rdA k (j+6) :: Acc.rdA k (j+5) ::
                      Acc.rdA k (j+4) :: s1.tr }
    else s1
  { s2 with
    b := wr (wr (wr (wr s2.b
           (j*N + k) c0) ((j+1)*N + k) c1) ((j+2)*N + k) c2) ((j+3)*N + k) c3,
    tr := Acc.wrB (j+3) k :: Acc.wrB (j+2) k :: Acc.wrB (j+1) k ::
          Acc.wrB j k :: s2.tr }

/-- `for (k = i; k < i+8; k++)` (even-stripe loop of `transpose64x64`). -/
def t64LoopE (M N i j : Nat) : Nat → Nat → St64 → St64
  | 0, _, s => s
  | n+1, k, s =>
    match t64StepE M N i j k s with
    | ⟨a, b, c4, c5, c6, c7, tr⟩ => t64LoopE M N i j n (k+1) ⟨a, b, c4, c5, c6, c7, tr⟩

/-- Odd-stripe body of `transpose64x64` (src/trans.c:151-170): at
`k == i+1` store the carry `c4..c7` to `B[j..j+3][k]` without touching
`A`; otherwise read `A[k][j..j+3]` and store to `B[j..j+3][k]`. -/
def t64StepO (M N i j k : Nat) (s : St64) : St64 :=
  if k = i+1 then
    { s with
      b := wr (wr (wr (wr s.b
             (j*N + k) s.c4) ((j+1)*N + k) s.c5) ((j+2)*N + k) s.c6)
             ((j+3)*N + k) s.c7,
      tr := Acc.wrB (j+3) k :: Acc.wrB (j+2) k :: Acc.wrB (j+1) k ::
            Acc.wrB j k :: s.tr }
  else
    let c0 := s.a (k*M + j)
    let c1 := s.a (k*M + (j+1))
    let c2 := s.a (k*M + (j+2))
    let c3 := s.a (k*M + (j+3))
    { s with
      b := wr (wr (wr (wr s.b
             (j*N + k) c0) ((j+1)*N + k) c1) ((j+2)*N + k) c2) ((j+3)*N + k) c3,
      tr := Acc.wrB (j+3) k :: Acc.wrB (j+2) k :: Acc.wrB (j+1) k ::
            Acc.wrB j k ::
            Acc.rdA k (j+3) :: Acc.rdA k (j+2) :: Acc.rdA k (j+1) ::
            Acc.rdA k j :: s.tr }

/-- `for (k = i+7; k >= i; k--)` (odd-stripe loop of `transpose64x64`). -/
def t64LoopO (M N i j : Nat) : Nat → Nat → St64 → St64
  | 0, _, s => s
  | n+1, k, s =>
    match t64StepO M N i j k s with
    | ⟨a, b, c4, c5, c6, c7, tr⟩ => t64LoopO M N i j n (k-1) ⟨a, b, c4, c5, c6, c7, tr⟩

/-- One 4-column stripe of `transpose64x64`, direction and carry role
chosen by `(j/4) % 2`. -/
def t64Stripe (M N i j : Nat) (s : St64) : St64 :=
  if (j/4) % 2 = 0 then t64LoopE M N i j 8 i s else t64LoopO M N i j 8 (i+7) s

/-- `for (j = 0; j < M; j += 4)` of `transpose64x64`. -/
def t64Cols (M N i : Nat) : Nat → Nat → St64 → St64
  | 0, _, s => s
  | n+1, j, s =>
    match t64Stripe M N i j s with
    | ⟨a, b, c4, c5, c6, c7, tr⟩ => t64Cols M N i n (j+4) ⟨a, b, c4, c5, c6, c7, tr⟩

/-- `for (i = 0; i < N; i += 8)` of `transpose64x64`. -/
def t64Rows (M N : Nat) : Nat → Nat → St64 → St64
  | 0, _, s => s
  | n+1, i, s =>
    match t64Cols M N i ((M+3)/4) 0 s with
    | ⟨a, b, c4, c5, c6, c7, tr⟩ => t64Rows M N n (i+8) ⟨a, b, c4, c5, c6, c7, tr⟩

/-- Shared loop nest of `transpose64x64` and of `test` (their C bodies
are textually identical). -/
def t64Run (M N : Nat) (s : St) : St :=
  let f := t64Rows M N ((N+7)/8) 0 ⟨s.a, s.b, 0, 0, 0, 0, s.tr⟩
  ⟨f.a, f.b, f.tr⟩

/-- `transpose64x64(M, N, A, B)` (src/trans.c:125-174). -/
def transpose64x64 (M N : Nat) (s : St) : St :=
  t64Run M N s

/-- `test(M, N, A, B)` (src/trans.c:176-225); its body is structurally
identical to `transpose64x64`. -/
def test (M N : Nat) (s : St) : St :=
  t64Run M N s

/-! ## `transpose_submit` — the dispatcher (src/trans.c:27-38) -/

/-- `transpose_submit(M, N, A, B)` (src/trans.c:27-38). -/
def transpose_submit (M N : Nat) (s : St) : St :=
  if M = 32 ∧ N = 32 then transpose32x32 M N s
  else if M = 32 ∧ N = 64 then transpose32x64 M N s
  else transpose64x64 M N s

/-! ## `is_transpose` — the oracle (src/trans.c:249-261) -/

/-- Inner loop of `is_transpose`: checks `A[i][j] == B[j][i]` for
`j = 0..M-1`; an early `return 0` is embedded as short-circuiting. -/
def itRow (M N : Nat) (a b : Nat → Int) (i : Nat) : Nat → Nat → Bool
  | 0, _ => true
  | n+1, j => if a (i*M + j) = b (j*N + i) then itRow M N a b i n (j+1) else false

/-- Outer loop of `is_transpose` over `i = 0..N-1`. -/
def itRows (M N : Nat) (a b : Nat → Int) : Nat → Nat → Bool
  | 0, _ => true
  | n+1, i => if itRow M N a b i M 0 then itRows M N a b n (i+1) else false

/-- `is_transpose(M, N, A, B)` (src/trans.c:249-261): `1` when every
comparison passes, `0` at the first mismatch. -/
def is_transpose (M N : Nat) (a b : Nat → Int) : Int :=
  if itRows M N a b N 0 then 1 else 0

/-! ## Cache model

Modelled from the spec: the driver that instruments accesses and counts
misses is not part of `src/`.  Spec §3/§6: 1 KiB direct-mapped cache,
32-byte lines (32 sets of one line), element size 4 bytes; two byte
addresses alias iff they agree modulo 1024; the cache is cold at entry.
Matrices are contiguous row-major buffers; the spec leaves the buffer
base addresses open, so following §4.3's rationale (rows of `A` and `B`
with equal index map to the same set) both bases are taken 1024-aligned:
`A` at byte 0 and `B` immediately after `A`, at byte `4*M*N` (a multiple
of 1024 for every shape considered). -/

/-- Modelled from the spec: byte address of an access, for shape
`(M, N)`, with `A` based at byte 0 and `B` at byte `4*M*N`. -/
def addrOf (M N : Nat) : Acc → Nat
  | .rdA r c => 4*(r*M + c)
  | .wrB r c => 4*M*N + 4*(r*N + c)

/-- Modelled from the spec: one access against the direct-mapped cache;
the state maps each of the 32 sets to the resident line, `none` when
the set is empty.  Returns the new state and whether the access missed. -/
def cacheAccess (tags : List (Option Nat)) (addr : Nat) : List (Option Nat) × Bool :=
  let ln := addr / 32
  let st := ln % 32
  match tags.getD st none with
  | some t => if t = ln then (tags, false) else (tags.set st (some ln), true)
  | none => (tags.set st (some ln), true)

/-- Modelled from the spec: run an address sequence through the cache,
returning the final cache state and the total miss count.  (The
accumulator is scrutinised at each step only to keep evaluation strict;
both branches continue with the same value.) -/
def simRun (tags : List (Option Nat)) (acc : Nat) : List Nat → List (Option Nat) × Nat
  | [] => (tags, acc)
  | a :: rest =>
    match cacheAccess tags a with
    | (tags1, miss) =>
      match acc + (if miss then 1 else 0) with
      | 0 => simRun tags1 0 rest
      | m+1 => simRun tags1 (m+1) rest

/-- Modelled from the spec: the cold cache (32 empty sets). -/
def coldCache : List (Option Nat) := List.replicate 32 none

/-- A closed initial state used for miss counting (trace empty; the
access trace of every routine is independent of the matrix contents). -/
def st0 : St := ⟨fun n => (n : Int), fun _ => 0, []⟩

/-- Modelled from the spec: the program-order byte-address sequence of
one run of a routine at shape `(M, N)` on `st0`.  (The access trace of
every routine depends only on the shape, not on the matrix contents.) -/
def addrsOf (M N : Nat) (f : Nat → Nat → St → St) : List Nat :=
  ((f M N st0).tr.reverse).map (addrOf M N)

/-- Modelled from the spec: miss count of a routine's run at shape
`(M, N)` from a cold cache, on the program-order access trace. -/
def missesOf (M N : Nat) (f : Nat → Nat → St → St) : Nat :=
  (simRun coldCache 0 (addrsOf M N f)).2

/-- The state with empty trace, cold carry and `st0`'s buffers, used as
the canonical start for `transpose64x64` trace decompositions. -/
def canon64 : St64 := ⟨st0.a, st0.b, 0, 0, 0, 0, []⟩

/-- The 2×2 input `A = [[1,2],[3,4]]` of the spec's fallback example,
stored row-major, with `B` zeroed. -/
def s22 : St :=
  ⟨fun n => if n = 0 then 1 else if n = 1 then 2 else
            if n = 2 then 3 else if n = 3 then 4 else 0,
   fun _ => 0, []⟩

/-- A concrete 8×8 starting state (with carry scalars) for exercising one
stripe pair of `transpose64x64`. -/
def c2w : St64 := ⟨fun n => (n : Int), fun _ => 0, 0, 0, 0, 0, []⟩

/-! ## Step equations of the loops

Each loop's successor case is definitionally the loop applied to the
stepped state (the strictness `match` in the definitions disappears by
structure eta). -/

lemma transInner_succ (M N i n j : Nat) (s : St) :
    transInner M N i (n+1) j s = transInner M N i n (j+1) (transStep M N i j s) := rfl

lemma transOuter_succ (M N n i : Nat) (s : St) :
    transOuter M N (n+1) i s = transOuter M N n (i+1) (transInner M N i M 0 s) := rfl

lemma t32Block_succ (M N i j n k : Nat) (s : St) :
    t32Block M N i j (n+1) k s = t32Block M N i j n (k+1) (t32Step M N i j k s) := rfl

lemma t32Cols_succ (M N i n j : Nat) (s : St) :
    t32Cols M N i (n+1) j s = t32Cols M N i n (j+8) (t32Block M N i j 8 i s) := rfl

lemma t32Rows_succ (M N n i : Nat) (s : St) :
    t32Rows M N (n+1) i s = t32Rows M N n (i+8) (t32Cols M N i ((M+7)/8) 0 s) := rfl

lemma t3264Asc_succ (M N i j n k : Nat) (s : St) :
    t3264Asc M N i j (n+1) k s = t3264Asc M N i j n (k+1) (t3264Step M N i j k s) := rfl

lemma t3264Desc_succ (M N i j n k : Nat) (s : St) :
    t3264Desc M N i j (n+1) k s = t3264Desc M N i j n (k-1) (t3264Step M N i j k s) := rfl

lemma t3264Cols_succ (M N i n j : Nat) (s : St) :
    t3264Cols M N i (n+1) j s = t3264Cols M N i n (j+4) (t3264Stripe M N i j s) := rfl

lemma t3264Rows_succ (M N n i : Nat) (s : St) :
    t3264Rows M N (n+1) i s = t3264Rows M N n (i+8) (t3264Cols M N i ((M+3)/4) 0 s) := rfl

lemma t64LoopE_succ (M N i j n k : Nat) (s : St64) :
    t64LoopE M N i j (n+1) k s = t64LoopE M N i j n (k+1) (t64StepE M N i j k s) := rfl

lemma t64LoopO_succ (M N i j n k : Nat) (s : St64) :
    t64LoopO M N i j (n+1) k s = t64LoopO M N i j n (k-1) (t64StepO M N i j k s) := rfl

lemma t64Cols_succ (M N i n j : Nat) (s : St64) :
    t64Cols M N i (n+1) j s = t64Cols M N i n (j+4) (t64Stripe M N i j s) := rfl

lemma t64Rows_succ (M N n i : Nat) (s : St64) :
    t64Rows M N (n+1) i s = t64Rows M N n (i+8) (t64Cols M N i ((M+3)/4) 0 s) := rfl

/-! ## Trace normal form

Every routine's trace is its trace from the canonical start state
(`st0`, resp. `canon64`) prepended to the incoming trace: the recorded
access pattern depends only on the loop indices, never on the matrix
contents, the carry, or the previous trace. -/

lemma transStep_tr (M N i j : Nat) (s : St) :
    (transStep M N i j s).tr = (transStep M N i j st0).tr ++ s.tr := rfl

lemma transInner_tr (M N i : Nat) : ∀ (n j : Nat) (s : St),
    (transInner M N i n j s).tr = (transInner M N i n j st0).tr ++ s.tr := by
  intro n
  induction n with
  | zero => intro j s; rfl
  | succ n ih =>
    intro j s
    rw [transInner_succ, transInner_succ, ih (j+1) (transStep M N i j s),
        ih (j+1) (transStep M N i j st0), transStep_tr M N i j s]
    simp [List.append_assoc]

lemma transOuter_tr (M N : Nat) : ∀ (n i : Nat) (s : St),
    (transOuter M N n i s).tr = (transOuter M N n i st0).tr ++ s.tr := by
  intro n
  induction n with
  | zero => intro i s; rfl
  | succ n ih =>
    intro i s
    rw [transOuter_succ, transOuter_succ, ih (i+1) (transInner M N i M 0 s),
        ih (i+1) (transInner M N i M 0 st0), transInner_tr M N i M 0 s]
    simp [List.append_assoc]

lemma t32Step_tr (M N i j k : Nat) (s : St) :
    (t32Step M N i j k s).tr = (t32Step M N i j k st0).tr ++ s.tr := rfl

lemma t32Block_tr (M N i j : Nat) : ∀ (n k : Nat) (s : St),
    (t32Block M N i j n k s).tr = (t32Block M N i j n k st0).tr ++ s.tr := by
  intro n
  induction n with
  | zero => intro k s; rfl
  | succ n ih =>
    intro k s
    rw [t32Block_succ, t32Block_succ, ih (k+1) (t32Step M N i j k s),
        ih (k+1) (t32Step M N i j k st0), t32Step_tr M N i j k s]
    simp [List.append_assoc]

lemma t32Cols_tr (M N i : Nat) : ∀ (n j : Nat) (s : St),
    (t32Cols M N i n j s).tr = (t32Cols M N i n j st0).tr ++ s.tr := by
  intro n
  induction n with
  | zero => intro j s; rfl
  | succ n ih =>
    intro j s
    rw [t32Cols_succ, t32Cols_succ, ih (j+8) (t32Block M N i j 8 i s),
        ih (j+8) (t32Block M N i j 8 i st0), t32Block_tr M N i j 8 i s]
    simp [List.append_assoc]

lemma t32Rows_tr (M N : Nat) : ∀ (n i : Nat) (s : St),
    (t32Rows M N n i s).tr = (t32Rows M N n i st0).tr ++ s.tr := by
  intro n
  induction n with
  | zero => intro i s; rfl
  | succ n ih =>
    intro i s
    rw [t32Rows_succ, t32Rows_succ, ih (i+8) (t32Cols M N i ((M+7)/8) 0 s),
        ih (i+8) (t32Cols M N i ((M+7)/8) 0 st0), t32Cols_tr M N i ((M+7)/8) 0 s]
    simp [List.append_assoc]

lemma t3264Step_tr (M N i j k : Nat) (s : St) :
    (t3264Step M N i j k s).tr = (t3264Step M N i j k st0).tr ++ s.tr := rfl

lemma t3264Asc_tr (M N i j : Nat) : ∀ (n k : Nat) (s : St),
    (t3264Asc M N i j n k s).tr = (t3264Asc M N i j n k st0).tr ++ s.tr := by
  intro n
  induction n with
  | zero => intro k s; rfl
  | succ n ih =>
    intro k s
    rw [t3264Asc_succ, t3264Asc_succ, ih (k+1) (t3264Step M N i j k s),
        ih (k+1) (t3264Step M N i j k st0), t3264Step_tr M N i j k s]
    simp [List.append_assoc]

lemma t3264Desc_tr (M N i j : Nat) : ∀ (n k : Nat) (s : St),
    (t3264Desc M N i j n k s).tr = (t3264Desc M N i j n k st0).tr ++ s.tr := by
  intro n
  induction n with
  | zero => intro k s; rfl
  | succ n ih =>
    intro k s
    rw [t3264Desc_succ, t3264Desc_succ, ih (k-1) (t3264Step M N i j k s),
        ih (k-1) (t3264Step M N i j k st0), t3264Step_tr M N i j k s]
    simp [List.append_assoc]

lemma t3264Stripe_tr (M N i j : Nat) (s : St) :
    (t3264Stripe M N i j s).tr = (t3264Stripe M N i j st0).tr ++ s.tr := by
  unfold t3264Stripe
  by_cases h : (j/4) % 2 = 0 <;> simp only [h, if_true, if_false, ite_true, ite_false]
  · exact t3264Asc_tr M N i j 8 i s
  · exact t3264Desc_tr M N i j 8 (i+7) s

lemma t3264Cols_tr (M N i : Nat) : ∀ (n j : Nat) (s : St),
    (t3264Cols M N i n j s).tr = (t3264Cols M N i n j st0).tr ++ s.tr := by
  intro n
  induction n with
  | zero => intro j s; rfl
  | succ n ih =>
    intro j s
    rw [t3264Cols_succ, t3264Cols_succ, ih (j+4) (t3264Stripe M N i j s),
        ih (j+4) (t3264Stripe M N i j st0), t3264Stripe_tr M N i j s]
    simp [List.append_assoc]

lemma t3264Rows_tr (M N : Nat) : ∀ (n i : Nat) (s : St),
    (t3264Rows M N n i s).tr = (t3264Rows M N n i st0).tr ++ s.tr := by
  intro n
  induction n with
  | zero => intro i s; rfl
  | succ n ih =>
    intro i s
    rw [t3264Rows_succ, t3264Rows_succ, ih (i+8) (t3264Cols M N i ((M+3)/4) 0 s),
        ih (i+8) (t3264Cols M N i ((M+3)/4) 0 st0), t3264Cols_tr M N i ((M+3)/4) 0 s]
    simp [List.append_assoc]

lemma t64StepE_tr (M N i j k : Nat) (s : St64) :
    (t64StepE M N i j k s).tr = (t64StepE M N i j k canon64).tr ++ s.tr := by
  by_cases h : k = i+1 <;> simp [t64StepE, h, canon64]

lemma t64StepO_tr (M N i j k : Nat) (s : St64) :
    (t64StepO M N i j k s).tr = (t64StepO M N i j k canon64).tr ++ s.tr := by
  by_cases h : k = i+1 <;> simp [t64StepO, h, canon64]

lemma t64LoopE_tr (M N i j : Nat) : ∀ (n k : Nat) (s : St64),
    (t64LoopE M N i j n k s).tr = (t64LoopE M N i j n k canon64).tr ++ s.tr := by
  intro n
  induction n with
  | zero => intro k s; rfl
  | succ n ih =>
    intro k s
    rw [t64LoopE_succ, t64LoopE_succ, ih (k+1) (t64StepE M N i j k s),
        ih (k+1) (t64StepE M N i j k canon64), t64StepE_tr M N i j k s]
    simp [List.append_assoc]

lemma t64LoopO_tr (M N i j : Nat) : ∀ (n k : Nat) (s : St64),
    (t64LoopO M N i j n k s).tr = (t64LoopO M N i j n k canon64).tr ++ s.tr := by
  intro n
  induction n with
  | zero => intro k s; rfl
  | succ n ih =>
    intro k s
    rw [t64LoopO_succ, t64LoopO_succ, ih (k-1) (t64StepO M N i j k s),
        ih (k-1) (t64StepO M N i j k canon64), t64StepO_tr M N i j k s]
    simp [List.append_assoc]

lemma t64Stripe_tr (M N i j : Nat) (s : St64) :
    (t64Stripe M N i j s).tr = (t64Stripe M N i j canon64).tr ++ s.tr := by
  unfold t64Stripe
  by_cases h : (j/4) % 2 = 0 <;> simp only [h, if_true, if_false, ite_true, ite_false]
  · exact t64LoopE_tr M N i j 8 i s
  · exact t64LoopO_tr M N i j 8 (i+7) s

lemma t64Cols_tr (M N i : Nat) : ∀ (n j : Nat) (s : St64),
    (t64Cols M N i n j s).tr = (t64Cols M N i n j canon64).tr ++ s.tr := by
  intro n
  induction n with
  | zero => intro j s; rfl
  | succ n ih =>
    intro j s
    rw [t64Cols_succ, t64Cols_succ, ih (j+4) (t64Stripe M N i j s),
        ih (j+4) (t64Stripe M N i j canon64), t64Stripe_tr M N i j s]
    simp [List.append_assoc]

lemma t64Rows_tr (M N : Nat) : ∀ (n i : Nat) (s : St64),
    (t64Rows M N n i s).tr = (t64Rows M N n i canon64).tr ++ s.tr := by
  intro n
  induction n with
  | zero => intro i s; rfl
  | succ n ih =>
    intro i s
    rw [t64Rows_succ, t64Rows_succ, ih (i+8) (t64Cols M N i ((M+3)/4) 0 s),
        ih (i+8) (t64Cols M N i ((M+3)/4) 0 canon64), t64Cols_tr M N i ((M+3)/4) 0 s]
    simp [List.append_assoc]

/-- Splitting the outer loop of `trans` into two runs. -/
lemma transOuter_add (M N : Nat) : ∀ (n1 n2 i : Nat) (s : St),
    transOuter M N (n1+n2) i s = transOuter M N n2 (i+n1) (transOuter M N n1 i s) := by
  intro n1
  induction n1 with
  | zero => intro n2 i s; simp [transOuter]
  | succ n1 ih =>
    intro n2 i s
    have e : n1 + 1 + n2 = (n1 + n2) + 1 := by omega
    rw [e, transOuter_succ, ih n2 (i+1) (transInner M N i M 0 s), transOuter_succ]
    have e2 : i + 1 + n1 = i + (n1+1) := by omega
    rw [e2]

/-! ## Lemmas about the cache simulation -/

/-- The strictness scrutinee in `simRun` is semantically transparent. -/
lemma simRun_matchNat (t : List (Option Nat)) (l : List Nat) (n : Nat) :
    (match n with | 0 => simRun t 0 l | m+1 => simRun t (m+1) l) = simRun t n l := by
  cases n <;> rfl

/-- The simulation of a concatenated address sequence factors through
the state and count reached after the first part. -/
lemma simRun_append (l1 l2 : List Nat) : ∀ tags acc,
    simRun tags acc (l1 ++ l2)
      = simRun (simRun tags acc l1).1 (simRun tags acc l1).2 l2 := by
  induction l1 with
  | nil => intro tags acc; rfl
  | cons a l1 ih =>
    intro tags acc
    rcases h : cacheAccess tags a with ⟨t1, miss⟩
    simp only [List.cons_append, simRun, h, simRun_matchNat]
    exact ih t1 (acc + if miss then 1 else 0)

/-- Factoring one simulation step over an evaluated prefix run. -/
lemma simRun_append2 (l1 l2 : List Nat) (tags : List (Option Nat)) (acc : Nat)
    (t : List (Option Nat)) (m : Nat) (h : simRun tags acc l1 = (t, m)) :
    simRun tags acc (l1 ++ l2) = simRun t m l2 := by
  rw [simRun_append, h]

/-- The trace of `t64Run` is the trace of its inner loop nest. -/
lemma t64Run_tr (M N : Nat) (s : St) :
    (t64Run M N s).tr = (t64Rows M N ((N+7)/8) 0 ⟨s.a, s.b, 0, 0, 0, 0, s.tr⟩).tr := rfl

set_option maxRecDepth 100000 in
set_option maxHeartbeats 2000000 in
lemma miss6464_e0 : simRun coldCache
    0 ((((t64Cols 64 64 0 16 0 canon64).tr.reverse).map (addrOf 64 64)))
    = ([some 992, some 1, some 2, some 3, some 4, some 5, some 6, some 7, some 1000, some 41, some 42, some 43, some 44, some 45, some 46, some 47, some 1008, some 17, some 18, some 19, some 20, some 21, some 22, some 23, some 1016, some 25, some 26, some 27, some 28, some 29, some 30, some 31],
      169) := by rfl

set_option maxRecDepth 100000 in
set_option maxHeartbeats 2000000 in
lemma miss6464_e1 : simRun ([some 992, some 1, some 2, some 3, some 4, some 5, some 6, some 7, some 1000, some 41, some 42, some 43, some 44, some 45, some 46, some 47, some 1008, some 17, some 18, some 19, some 20, some 21, some 22, some 23, some 1016, some 25, some 26, some 27, some 28, some 29, some 30, some 31])
    169 ((((t64Cols 64 64 8 16 0 canon64).tr.reverse).map (addrOf 64 64)))
    = ([some 64, some 993, some 66, some 67, some 68, some 69, some 70, some 71, some 104, some 1001, some 106, some 107, some 108, some 109, some 110, some 111, some 80, some 1009, some 82, some 83, some 84, some 85, some 86, some 87, some 88, some 1017, some 90, some 91, some 92, some 93, some 94, some 95],
      338) := by rfl

set_option maxRecDepth 100000 in
set_option maxHeartbeats 2000000 in
lemma miss6464_e2 : simRun ([some 64, some 993, some 66, some 67, some 68, some 69, some 70, some 71, some 104, some 1001, some 106, some 107, some 108, some 109, some 110, some 111, some 80, some 1009, some 82, some 83, some 84, some 85, some 86, some 87, some 88, some 1017, some 90, some 91, some 92, some 93, some 94, some 95])
    338 ((((t64Cols 64 64 16 16 0 canon64).tr.reverse).map (addrOf 64 64)))
    = ([some 128, some 129, some 994, some 131, some 132, some 133, some 134, some 135, some 168, some 169, some 1002, some 171, some 172, some 173, some 174, some 175, some 144, some 145, some 1010, some 147, some 148, some 149, some 150, some 151, some 152, some 153, some 1018, some 155, some 156, some 157, some 158, some 159],
      507) := by rfl

set_option maxRecDepth 100000 in
set_option maxHeartbeats 2000000 in
lemma miss6464_e3 : simRun ([some 128, some 129, some 994, some 131, some 132, some 133, some 134, some 135, some 168, some 169, some 1002, some 171, some 172, some 173, some 174, some 175, some 144, some 145, some 1010, some 147, some 148, some 149, some 150, some 151, some 152, some 153, some 1018, some 155, some 156, some 157, some 158, some 159])
    507 ((((t64Cols 64 64 24 16 0 canon64).tr.reverse).map (addrOf 64 64)))
    = ([some 192, some 193, some 194, some 995, some 196, some 197, some 198, some 199, some 232, some 233, some 234, some 1003, some 236, some 237, some 238, some 239, some 208, some 209, some 210, some 1011, some 212, some 213, some 214, some 215, some 216, some 217, some 218, some 1019, some 220, some 221, some 222, some 223],
      676) := by rfl

set_option maxRecDepth 100000 in
set_option maxHeartbeats 2000000 in
lemma miss6464_e4 : simRun ([some 192, some 193, some 194, some 995, some 196, some 197, some 198, some 199, some 232, some 233, some 234, some 1003, some 236, some 237, some 238, some 239, some 208, some 209, some 210, some 1011, some 212, some 213, some 214, some 215, some 216, some 217, some 218, some 1019, some 220, some 221, some 222, some 223])
    676 ((((t64Cols 64 64 32 16 0 canon64).tr.reverse).map (addrOf 64 64)))
    = ([some 256, some 257, some 258, some 259, some 996, some 261, some 262, some 263, some 296, some 297, some 298, some 299, some 1004, some 301, some 302, some 303, some 272, some 273, some 274, some 275, some 1012, some 277, some 278, some 279, some 280, some 281, some 282, some 283, some 1020, some 285, some 286, some 287],
      845) := by rfl

set_option maxRecDepth 100000 in
set_option maxHeartbeats 2000000 in
lemma miss6464_e5 : simRun ([some 256, some 257, some 258, some 259, some 996, some 261, some 262, some 263, some 296, some 297, some 298, some 299, some 1004, some 301, some 302, some 303, some 272, some 273, some 274, some 275, some 1012, some 277, some 278, some 279, some 280, some 281, some 282, some 283, some 1020, some 285, some 286, some 287])
    845 ((((t64Cols 64 64 40 16 0 canon64).tr.reverse).map (addrOf 64 64)))
    = ([some 320, some 321, some 322, some 323, some 324, some 997, some 326, some 327, some 360, some 361, some 362, some 363, some 364, some 1005, some 366, some 367, some 336, some 337, some 338, some 339, some 340, some 1013, some 342, some 343, some 344, some 345, some 346, some 347, some 348, some 1021, some 350, some 351],
      1014) := by rfl

set_option maxRecDepth 100000 in
set_option maxHeartbeats 2000000 in
lemma miss6464_e6 : simRun ([some 320, some 321, some 322, some 323, some 324, some 997, some 326, some 327, some 360, some 361, some 362, some 363, some 364, some 1005, some 366, some 367, some 336, some 337, some 338, some 339, some 340, some 1013, some 342, some 343, some 344, some 345, some 346, some 347, some 348, some 1021, some 350, some 351])
    1014 ((((t64Cols 64 64 48 16 0 canon64).tr.reverse).map (addrOf 64 64)))
    = ([some 384, some 385, some 386, some 387, some 388, some 389, some 998, some 391, some 424, some 425, some 426, some 427, some 428, some 429, some 1006, some 431, some 400, some 401, some 402, some 403, some 404, some 405, some 1014, some 407, some 408, some 409, some 410, some 411, some 412, some 413, some 1022, some 415],
      1183) := by rfl

set_option maxRecDepth 100000 in
set_option maxHeartbeats 2000000 in
lemma miss6464_e7 : simRun ([some 384, some 385, some 386, some 387, some 388, some 389, some 998, some 391, some 424, some 425, some 426, some 427, some 428, some 429, some 1006, some 431, some 400, some 401, some 402, some 403, some 404, some 405, some 1014, some 407, some 408, some 409, some 410, some 411, some 412, some 413, some 1022, some 415])
    1183 ((((t64Cols 64 64 56 16 0 canon64).tr.reverse).map (addrOf 64 64)))
    = ([some 448, some 449, some 450, some 451, some 452, some 453, some 454, some 999, some 488, some 489, some 490, some 491, some 492, some 493, some 494, some 1007, some 464, some 465, some 466, some 467, some 468, some 469, some 470, some 1015, some 472, some 473, some 474, some 475, some 476, some 477, some 478, some 1023],
      1352) := by rfl

set_option maxRecDepth 100000 in
set_option maxHeartbeats 2000000 in
/-- `transpose64x64` at (64,64) incurs 1352 misses. -/
lemma miss6464 : missesOf 64 64 transpose64x64 = 1352 := by
  have d1 : (t64Rows 64 64 8 0 canon64).tr
      = (t64Rows 64 64 7 8 canon64).tr ++ (t64Cols 64 64 0 16 0 canon64).tr := by
    rw [t64Rows_succ]; exact t64Rows_tr _ _ _ _ _
  have d2 : (t64Rows 64 64 7 8 canon64).tr
      = (t64Rows 64 64 6 16 canon64).tr ++ (t64Cols 64 64 8 16 0 canon64).tr := by
    rw [t64Rows_succ]; exact t64Rows_tr _ _ _ _ _
  have d3 : (t64Rows 64 64 6 16 canon64).tr
      = (t64Rows 64 64 5 24 canon64).tr ++ (t64Cols 64 64 16 16 0 canon64).tr := by
    rw [t64Rows_succ]; exact t64Rows_tr _ _ _ _ _
  have d4 : (t64Rows 64 64 5 24 canon64).tr
      = (t64Rows 64 64 4 32 canon64).tr ++ (t64Cols 64 64 24 16 0 canon64).tr := by
    rw [t64Rows_succ]; exact t64Rows_tr _ _ _ _ _
  have d5 : (t64Rows 64 64 4 32 canon64).tr
      = (t64Rows 64 64 3 40 canon64).tr ++ (t64Cols 64 64 32 16 0 canon64).tr := by
    rw [t64Rows_succ]; exact t64Rows_tr _ _ _ _ _
  have d6 : (t64Rows 64 64 3 40 canon64).tr
      = (t64Rows 64 64 2 48 canon64).tr ++ (t64Cols 64 64 40 16 0 canon64).tr := by
    rw [t64Rows_succ]; exact t64Rows_tr _ _ _ _ _
  have d7 : (t64Rows 64 64 2 48 canon64).tr
      = (t64Rows 64 64 1 56 canon64).tr ++ (t64Cols 64 64 48 16 0 canon64).tr := by
    rw [t64Rows_succ]; exact t64Rows_tr _ _ _ _ _
  have d8 : (t64Rows 64 64 1 56 canon64).tr = (t64Cols 64 64 56 16 0 canon64).tr := rfl
  show (simRun coldCache 0 (((transpose64x64 64 64 st0).tr.reverse).map (addrOf 64 64))).2 = 1352
  simp only [transpose64x64]
  rw [t64Run_tr]
  rw [show (⟨st0.a, st0.b, 0, 0, 0, 0, st0.tr⟩ : St64) = canon64 from rfl,
      show ((64:Nat)+7)/8 = 8 from rfl]
  rw [d1, d2, d3, d4, d5, d6, d7, d8]
  simp only [List.reverse_append, List.map_append]
  rw [simRun_append2 _ _ _ _ _ _ miss6464_e0]
  rw [simRun_append2 _ _ _ _ _ _ miss6464_e1]
  rw [simRun_append2 _ _ _ _ _ _ miss6464_e2]
  rw [simRun_append2 _ _ _ _ _ _ miss6464_e3]
  rw [simRun_append2 _ _ _ _ _ _ miss6464_e4]
  rw [simRun_append2 _ _ _ _ _ _ miss6464_e5]
  rw [simRun_append2 _ _ _ _ _ _ miss6464_e6]
  rw [miss6464_e7]

set_option maxRecDepth 100000 in
set_option maxHeartbeats 2000000 in
lemma missTrans64_e0 : simRun coldCache
    0 ((((transOuter 64 64 8 0 st0).tr.reverse).map (addrOf 64 64)))
    = ([some 992, some 33, some 34, some 35, some 36, some 37, some 38, some 39, some 1000, some 41, some 42, some 43, some 44, some 45, some 46, some 47, some 1008, some 49, some 50, some 51, some 52, some 53, some 54, some 55, some 1016, some 57, some 58, some 59, some 60, some 61, some 62, some 63],
      590) := by rfl

set_option maxRecDepth 100000 in
set_option maxHeartbeats 2000000 in
lemma missTrans64_e1 : simRun ([some 992, some 33, some 34, some 35, some 36, some 37, some 38, some 39, some 1000, some 41, some 42, some 43, some 44, some 45, some 46, some 47, some 1008, some 49, some 50, some 51, some 52, some 53, some 54, some 55, some 1016, some 57, some 58, some 59, some 60, some 61, some 62, some 63])
    590 ((((transOuter 64 64 8 8 st0).tr.reverse).map (addrOf 64 64)))
    = ([some 96, some 993, some 98, some 99, some 100, some 101, some 102, some 103, some 104, some 1001, some 106, some 107, some 108, some 109, some 110, some 111, some 112, some 1009, some 114, some 115, some 116, some 117, some 118, some 119, some 120, some 1017, some 122, some 123, some 124, some 125, some 126, some 127],
      1180) := by rfl

set_option maxRecDepth 100000 in
set_option maxHeartbeats 2000000 in
lemma missTrans64_e2 : simRun ([some 96, some 993, some 98, some 99, some 100, some 101, some 102, some 103, some 104, some 1001, some 106, some 107, some 108, some 109, some 110, some 111, some 112, some 1009, some 114, some 115, some 116, some 117, some 118, some 119, some 120, some 1017, some 122, some 123, some 124, some 125, some 126, some 127])
    1180 ((((transOuter 64 64 8 16 st0).tr.reverse).map (addrOf 64 64)))
    = ([some 160, some 161, some 994, some 163, some 164, some 165, some 166, some 167, some 168, some 169, some 1002, some 171, some 172, some 173, some 174, some 175, some 176, some 177, some 1010, some 179, some 180, some 181, some 182, some 183, some 184, some 185, some 1018, some 187, some 188, some 189, some 190, some 191],
      1770) := by rfl

set_option maxRecDepth 100000 in
set_option maxHeartbeats 2000000 in
lemma missTrans64_e3 : simRun ([some 160, some 161, some 994, some 163, some 164, some 165, some 166, some 167, some 168, some 169, some 1002, some 171, some 172, some 173, some 174, some 175, some 176, some 177, some 1010, some 179, some 180, some 181, some 182, some 183, some 184, some 185, some 1018, some 187, some 188, some 189, some 190, some 191])
    1770 ((((transOuter 64 64 8 24 st0).tr.reverse).map (addrOf 64 64)))
    = ([some 224, some 225, some 226, some 995, some 228, some 229, some 230, some 231, some 232, some 233, some 234, some 1003, some 236, some 237, some 238, some 239, some 240, some 241, some 242, some 1011, some 244, some 245, some 246, some 247, some 248, some 249, some 250, some 1019, some 252, some 253, some 254, some 255],
      2360) := by rfl

set_option maxRecDepth 100000 in
set_option maxHeartbeats 2000000 in
lemma missTrans64_e4 : simRun ([some 224, some 225, some 226, some 995, some 228, some 229, some 230, some 231, some 232, some 233, some 234, some 1003, some 236, some 237, some 238, some 239, some 240, some 241, some 242, some 1011, some 244, some 245, some 246, some 247, some 248, some 249, some 250, some 1019, some 252, some 253, some 254, some 255])
    2360 ((((transOuter 64 64 8 32 st0).tr.reverse).map (addrOf 64 64)))
    = ([some 288, some 289, some 290, some 291, some 996, some 293, some 294, some 295, some 296, some 297, some 298, some 299, some 1004, some 301, some 302, some 303, some 304, some 305, some 306, some 307, some 1012, some 309, some 310, some 311, some 312, some 313, some 314, some 315, some 1020, some 317, some 318, some 319],
      2950) := by rfl

set_option maxRecDepth 100000 in
set_option maxHeartbeats 2000000 in
lemma missTrans64_e5 : simRun ([some 288, some 289, some 290, some 291, some 996, some 293, some 294, some 295, some 296, some 297, some 298, some 299, some 1004, some 301, some 302, some 303, some 304, some 305, some 306, some 307, some 1012, some 309, some 310, some 311, some 312, some 313, some 314, some 315, some 1020, some 317, some 318, some 319])
    2950 ((((transOuter 64 64 8 40 st0).tr.reverse).map (addrOf 64 64)))
    = ([some 352, some 353, some 354, some 355, some 356, some 997, some 358, some 359, some 360, some 361, some 362, some 363, some 364, some 1005, some 366, some 367, some 368, some 369, some 370, some 371, some 372, some 1013, some 374, some 375, some 376, some 377, some 378, some 379, some 380, some 1021, some 382, some 383],
      3540) := by rfl

set_option maxRecDepth 100000 in
set_option maxHeartbeats 2000000 in
lemma missTrans64_e6 : simRun ([some 352, some 353, some 354, some 355, some 356, some 997, some 358, some 359, some 360, some 361, some 362, some 363, some 364, some 1005, some 366, some 367, some 368, some 369, some 370, some 371, some 372, some 1013, some 374, some 375, some 376, some 377, some 378, some 379, some 380, some 1021, some 382, some 383])
    3540 ((((transOuter 64 64 8 48 st0).tr.reverse).map (addrOf 64 64)))
    = ([some 416, some 417, some 418, some 419, some 420, some 421, some 998, some 423, some 424, some 425, some 426, some 427, some 428, some 429, some 1006, some 431, some 432, some 433, some 434, some 435, some 436, some 437, some 1014, some 439, some 440, some 441, some 442, some 443, some 444, some 445, some 1022, some 447],
      4130) := by rfl

set_option maxRecDepth 100000 in
set_option maxHeartbeats 2000000 in
lemma missTrans64_e7 : simRun ([some 416, some 417, some 418, some 419, some 420, some 421, some 998, some 423, some 424, some 425, some 426, some 427, some 428, some 429, some 1006, some 431, some 432, some 433, some 434, some 435, some 436, some 437, some 1014, some 439, some 440, some 441, some 442, some 443, some 444, some 445, some 1022, some 447])
    4130 ((((transOuter 64 64 8 56 st0).tr.reverse).map (addrOf 64 64)))
    = ([some 480, some 481, some 482, some 483, some 484, some 485, some 486, some 999, some 488, some 489, some 490, some 491, some 492, some 493, some 494, some 1007, some 496, some 497, some 498, some 499, some 500, some 501, some 502, some 1015, some 504, some 505, some 506, some 507, some 508, some 509, some 510, some 1023],
      4720) := by rfl

set_option maxRecDepth 100000 in
set_option maxHeartbeats 2000000 in
/-- The baseline `trans` at (64,64) incurs 4720 misses. -/
lemma missTrans64 : missesOf 64 64 trans = 4720 := by
  have d1 : (transOuter 64 64 64 0 st0).tr
      = (transOuter 64 64 56 8 st0).tr ++ (transOuter 64 64 8 0 st0).tr := by
    have a : transOuter 64 64 64 0 st0
        = transOuter 64 64 56 8 (transOuter 64 64 8 0 st0) :=
      transOuter_add 64 64 8 56 0 st0
    rw [a]; exact transOuter_tr _ _ _ _ _
  have d2 : (transOuter 64 64 56 8 st0).tr
      = (transOuter 64 64 48 16 st0).tr ++ (transOuter 64 64 8 8 st0).tr := by
    have a : transOuter 64 64 56 8 st0
        = transOuter 64 64 48 16 (transOuter 64 64 8 8 st0) :=
      transOuter_add 64 64 8 48 8 st0
    rw [a]; exact transOuter_tr _ _ _ _ _
  have d3 : (transOuter 64 64 48 16 st0).tr
      = (transOuter 64 64 40 24 st0).tr ++ (transOuter 64 64 8 16 st0).tr := by
    have a : transOuter 64 64 48 16 st0
        = transOuter 64 64 40 24 (transOuter 64 64 8 16 st0) :=
      transOuter_add 64 64 8 40 16 st0
    rw [a]; exact transOuter_tr _ _ _ _ _
  have d4 : (transOuter 64 64 40 24 st0).tr
      = (transOuter 64 64 32 32 st0).tr ++ (transOuter 64 64 8 24 st0).tr := by
    have a : transOuter 64 64 40 24 st0
        = transOuter 64 64 32 32 (transOuter 64 64 8 24 st0) :=
      transOuter_add 64 64 8 32 24 st0
    rw [a]; exact transOuter_tr _ _ _ _ _
  have d5 : (transOuter 64 64 32 32 st0).tr
      = (transOuter 64 64 24 40 st0).tr ++ (transOuter 64 64 8 32 st0).tr := by
    have a : transOuter 64 64 32 32 st0
        = transOuter 64 64 24 40 (transOuter 64 64 8 32 st0) :=
      transOuter_add 64 64 8 24 32 st0
    rw [a]; exact transOuter_tr _ _ _ _ _
  have d6 : (transOuter 64 64 24 40 st0).tr
      = (transOuter 64 64 16 48 st0).tr ++ (transOuter 64 64 8 40 st0).tr := by
    have a : transOuter 64 64 24 40 st0
        = transOuter 64 64 16 48 (transOuter 64 64 8 40 st0) :=
      transOuter_add 64 64 8 16 40 st0
    rw [a]; exact transOuter_tr _ _ _ _ _
  have d7 : (transOuter 64 64 16 48 st0).tr
      = (transOuter 64 64 8 56 st0).tr ++ (transOuter 64 64 8 48 st0).tr := by
    have a : transOuter 64 64 16 48 st0
        = transOuter 64 64 8 56 (transOuter 64 64 8 48 st0) :=
      transOuter_add 64 64 8 8 48 st0
    rw [a]; exact transOuter_tr _ _ _ _ _
  show (simRun coldCache 0 (((trans 64 64 st0).tr.reverse).map (addrOf 64 64))).2 = 4720
  simp only [trans]
  rw [d1, d2, d3, d4, d5, d6, d7]
  simp only [List.reverse_append, List.map_append]
  rw [simRun_append2 _ _ _ _ _ _ missTrans64_e0]
  rw [simRun_append2 _ _ _ _ _ _ missTrans64_e1]
  rw [simRun_append2 _ _ _ _ _ _ missTrans64_e2]
  rw [simRun_append2 _ _ _ _ _ _ missTrans64_e3]
  rw [simRun_append2 _ _ _ _ _ _ missTrans64_e4]
  rw [simRun_append2 _ _ _ _ _ _ missTrans64_e5]
  rw [simRun_append2 _ _ _ _ _ _ missTrans64_e6]
  rw [missTrans64_e7]

set_option maxRecDepth 100000 in
set_option maxHeartbeats 2000000 in
lemma miss3264_e0 : simRun coldCache
    0 ((((t3264Cols 32 64 0 8 0 st0).tr.reverse).map (addrOf 32 64)))
    = ([some 480, some 1, some 2, some 3, some 4, some 5, some 6, some 7, some 488, some 9, some 10, some 11, some 12, some 13, some 14, some 15, some 496, some 17, some 18, some 19, some 20, some 21, some 22, some 23, some 504, some 25, some 26, some 27, some 28, some 29, some 30, some 31],
      75) := by rfl

set_option maxRecDepth 100000 in
set_option maxHeartbeats 2000000 in
lemma miss3264_e1 : simRun ([some 480, some 1, some 2, some 3, some 4, some 5, some 6, some 7, some 488, some 9, some 10, some 11, some 12, some 13, some 14, some 15, some 496, some 17, some 18, some 19, some 20, some 21, some 22, some 23, some 504, some 25, some 26, some 27, some 28, some 29, some 30, some 31])
    75 ((((t3264Cols 32 64 8 8 0 st0).tr.reverse).map (addrOf 32 64)))
    = ([some 32, some 481, some 34, some 35, some 36, some 37, some 38, some 39, some 40, some 489, some 42, some 43, some 44, some 45, some 46, some 47, some 48, some 497, some 50, some 51, some 52, some 53, some 54, some 55, some 56, some 505, some 58, some 59, some 60, some 61, some 62, some 63],
      150) := by rfl

set_option maxRecDepth 100000 in
set_option maxHeartbeats 2000000 in
lemma miss3264_e2 : simRun ([some 32, some 481, some 34, some 35, some 36, some 37, some 38, some 39, some 40, some 489, some 42, some 43, some 44, some 45, some 46, some 47, some 48, some 497, some 50, some 51, some 52, some 53, some 54, some 55, some 56, some 505, some 58, some 59, some 60, some 61, some 62, some 63])
    150 ((((t3264Cols 32 64 16 8 0 st0).tr.reverse).map (addrOf 32 64)))
    = ([some 64, some 65, some 482, some 67, some 68, some 69, some 70, some 71, some 72, some 73, some 490, some 75, some 76, some 77, some 78, some 79, some 80, some 81, some 498, some 83, some 84, some 85, some 86, some 87, some 88, some 89, some 506, some 91, some 92, some 93, some 94, some 95],
      225) := by rfl

set_option maxRecDepth 100000 in
set_option maxHeartbeats 2000000 in
lemma miss3264_e3 : simRun ([some 64, some 65, some 482, some 67, some 68, some 69, some 70, some 71, some 72, some 73, some 490, some 75, some 76, some 77, some 78, some 79, some 80, some 81, some 498, some 83, some 84, some 85, some 86, some 87, some 88, some 89, some 506, some 91, some 92, some 93, some 94, some 95])
    225 ((((t3264Cols 32 64 24 8 0 st0).tr.reverse).map (addrOf 32 64)))
    = ([some 96, some 97, some 98, some 483, some 100, some 101, some 102, some 103, some 104, some 105, some 106, some 491, some 108, some 109, some 110, some 111, some 112, some 113, some 114, some 499, some 116, some 117, some 118, some 119, some 120, some 121, some 122, some 507, some 124, some 125, some 126, some 127],
      300) := by rfl

set_option maxRecDepth 100000 in
set_option maxHeartbeats 2000000 in
lemma miss3264_e4 : simRun ([some 96, some 97, some 98, some 483, some 100, some 101, some 102, some 103, some 104, some 105, some 106, some 491, some 108, some 109, some 110, some 111, some 112, some 113, some 114, some 499, some 116, some 117, some 118, some 119, some 120, some 121, some 122, some 507, some 124, some 125, some 126, some 127])
    300 ((((t3264Cols 32 64 32 8 0 st0).tr.reverse).map (addrOf 32 64)))
    = ([some 128, some 129, some 130, some 131, some 484, some 133, some 134, some 135, some 136, some 137, some 138, some 139, some 492, some 141, some 142, some 143, some 144, some 145, some 146, some 147, some 500, some 149, some 150, some 151, some 152, some 153, some 154, some 155, some 508, some 157, some 158, some 159],
      375) := by rfl

set_option maxRecDepth 100000 in
set_option maxHeartbeats 2000000 in
lemma miss3264_e5 : simRun ([some 128, some 129, some 130, some 131, some 484, some 133, some 134, some 135, some 136, some 137, some 138, some 139, some 492, some 141, some 142, some 143, some 144, some 145, some 146, some 147, some 500, some 149, some 150, some 151, some 152, some 153, some 154, some 155, some 508, some 157, some 158, some 159])
    375 ((((t3264Cols 32 64 40 8 0 st0).tr.reverse).map (addrOf 32 64)))
    = ([some 160, some 161, some 162, some 163, some 164, some 485, some 166, some 167, some 168, some 169, some 170, some 171, some 172, some 493, some 174, some 175, some 176, some 177, some 178, some 179, some 180, some 501, some 182, some 183, some 184, some 185, some 186, some 187, some 188, some 509, some 190, some 191],
      450) := by rfl

set_option maxRecDepth 100000 in
set_option maxHeartbeats 2000000 in
lemma miss3264_e6 : simRun ([some 160, some 161, some 162, some 163, some 164, some 485, some 166, some 167, some 168, some 169, some 170, some 171, some 172, some 493, some 174, some 175, some 176, some 177, some 178, some 179, some 180, some 501, some 182, some 183, some 184, some 185, some 186, some 187, some 188, some 509, some 190, some 191])
    450 ((((t3264Cols 32 64 48 8 0 st0).tr.reverse).map (addrOf 32 64)))
    = ([some 192, some 193, some 194, some 195, some 196, some 197, some 486, some 199, some 200, some 201, some 202, some 203, some 204, some 205, some 494, some 207, some 208, some 209, some 210, some 211, some 212, some 213, some 502, some 215, some 216, some 217, some 218, some 219, some 220, some 221, some 510, some 223],
      525) := by rfl

set_option maxRecDepth 100000 in
set_option maxHeartbeats 2000000 in
lemma miss3264_e7 : simRun ([some 192, some 193, some 194, some 195, some 196, some 197, some 486, some 199, some 200, some 201, some 202, some 203, some 204, some 205, some 494, some 207, some 208, some 209, some 210, some 211, some 212, some 213, some 502, some 215, some 216, some 217, some 218, some 219, some 220, some 221, some 510, some 223])
    525 ((((t3264Cols 32 64 56 8 0 st0).tr.reverse).map (addrOf 32 64)))
    = ([some 224, some 225, some 226, some 227, some 228, some 229, some 230, some 487, some 232, some 233, some 234, some 235, some 236, some 237, some 238, some 495, some 240, some 241, some 242, some 243, some 244, some 245, some 246, some 503, some 248, some 249, some 250, some 251, some 252, some 253, some 254, some 511],
      600) := by rfl

set_option maxRecDepth 100000 in
set_option maxHeartbeats 2000000 in
/-- `transpose32x64` at (32,64) incurs 600 misses. -/
lemma miss3264 : missesOf 32 64 transpose32x64 = 600 := by
  have d1 : (t3264Rows 32 64 8 0 st0).tr
      = (t3264Rows 32 64 7 8 st0).tr ++ (t3264Cols 32 64 0 8 0 st0).tr := by
    rw [t3264Rows_succ]; exact t3264Rows_tr _ _ _ _ _
  have d2 : (t3264Rows 32 64 7 8 st0).tr
      = (t3264Rows 32 64 6 16 st0).tr ++ (t3264Cols 32 64 8 8 0 st0).tr := by
    rw [t3264Rows_succ]; exact t3264Rows_tr _ _ _ _ _
  have d3 : (t3264Rows 32 64 6 16 st0).tr
      = (t3264Rows 32 64 5 24 st0).tr ++ (t3264Cols 32 64 16 8 0 st0).tr := by
    rw [t3264Rows_succ]; exact t3264Rows_tr _ _ _ _ _
  have d4 : (t3264Rows 32 64 5 24 st0).tr
      = (t3264Rows 32 64 4 32 st0).tr ++ (t3264Cols 32 64 24 8 0 st0).tr := by
    rw [t3264Rows_succ]; exact t3264Rows_tr _ _ _ _ _
  have d5 : (t3264Rows 32 64 4 32 st0).tr
      = (t3264Rows 32 64 3 40 st0).tr ++ (t3264Cols 32 64 32 8 0 st0).tr := by
    rw [t3264Rows_succ]; exact t3264Rows_tr _ _ _ _ _
  have d6 : (t3264Rows 32 64 3 40 st0).tr
      = (t3264Rows 32 64 2 48 st0).tr ++ (t3264Cols 32 64 40 8 0 st0).tr := by
    rw [t3264Rows_succ]; exact t3264Rows_tr _ _ _ _ _
  have d7 : (t3264Rows 32 64 2 48 st0).tr
      = (t3264Rows 32 64 1 56 st0).tr ++ (t3264Cols 32 64 48 8 0 st0).tr := by
    rw [t3264Rows_succ]; exact t3264Rows_tr _ _ _ _ _
  have d8 : (t3264Rows 32 64 1 56 st0).tr = (t3264Cols 32 64 56 8 0 st0).tr := rfl
  show (simRun coldCache 0 (((transpose32x64 32 64 st0).tr.reverse).map (addrOf 32 64))).2 = 600
  simp only [transpose32x64]
  rw [show ((64:Nat)+7)/8 = 8 from rfl]
  rw [d1, d2, d3, d4, d5, d6, d7, d8]
  simp only [List.reverse_append, List.map_append]
  rw [simRun_append2 _ _ _ _ _ _ miss3264_e0]
  rw [simRun_append2 _ _ _ _ _ _ miss3264_e1]
  rw [simRun_append2 _ _ _ _ _ _ miss3264_e2]
  rw [simRun_append2 _ _ _ _ _ _ miss3264_e3]
  rw [simRun_append2 _ _ _ _ _ _ miss3264_e4]
  rw [simRun_append2 _ _ _ _ _ _ miss3264_e5]
  rw [simRun_append2 _ _ _ _ _ _ miss3264_e6]
  rw [miss3264_e7]

/-! ## Flat-index arithmetic -/

/-- A flat row-major cell `c*N + k` with `k < N` determines `c` and `k`. -/
lemma cell_inj {N c c' k k' : Nat} (hk : k < N) (hk' : k' < N)
    (h : c*N + k = c'*N + k') : c = c' ∧ k = k' := by
  have hN : 0 < N := Nat.lt_of_le_of_lt (Nat.zero_le k) hk
  have m1 : (c*N + k) % N = k := by
    rw [Nat.mul_comm, Nat.mul_add_mod]; exact Nat.mod_eq_of_lt hk
  have m2 : (c'*N + k') % N = k' := by
    rw [Nat.mul_comm, Nat.mul_add_mod]; exact Nat.mod_eq_of_lt hk'
  have e1 : k = k' := by rw [← m1, h, m2]
  have e2 : c = c' := by
    have e : c*N = c'*N := by omega
    exact Nat.eq_of_mul_eq_mul_right hN e
  exact ⟨e2, e1⟩

/-- Reading a just-written cell. -/
lemma wr_eq (b : Nat → Int) (k : Nat) (v : Int) : wr b k v k = v := by
  simp [wr]

/-- Reading any other cell. -/
lemma wr_ne (b : Nat → Int) (k : Nat) (v : Int) {n : Nat} (h : n ≠ k) :
    wr b k v n = b n := by
  simp [wr, h]

/-! ## `trans`: `A` is untouched, and the final `B` -/

lemma transInner_a (M N i : Nat) : ∀ (n j : Nat) (s : St),
    (transInner M N i n j s).a = s.a := by
  intro n
  induction n with
  | zero => intro j s; rfl
  | succ n ih => intro j s; rw [transInner_succ]; exact ih (j+1) _

lemma transOuter_a (M N : Nat) : ∀ (n i : Nat) (s : St),
    (transOuter M N n i s).a = s.a := by
  intro n
  induction n with
  | zero => intro i s; rfl
  | succ n ih =>
    intro i s
    rw [transOuter_succ, ih (i+1) _, transInner_a]

/-- Cells of `B` outside the rows written by the remaining inner
iterations are untouched. -/
lemma transInner_frame (M N i : Nat) : ∀ (n j : Nat) (s : St) (m : Nat),
    (∀ t, t < n → m ≠ (j+t)*N + i) → (transInner M N i n j s).b m = s.b m := by
  intro n
  induction n with
  | zero => intro j s m _; rfl
  | succ n ih =>
    intro j s m h
    rw [transInner_succ, ih (j+1) _ m ?hrest]
    case hrest =>
      intro t ht
      have e : j+1+t = j+(t+1) := by omega
      rw [e]
      exact h (t+1) (by omega)
    have h0 : m ≠ j*N + i := by
      have := h 0 (by omega)
      simpa using this
    simp [transStep, wr_ne _ _ _ h0]

/-- Each remaining inner iteration writes `B[j+t][i] = A[i][j+t]`. -/
lemma transInner_val (M N i : Nat) (hi : i < N) : ∀ (n j t : Nat) (s : St), t < n →
    (transInner M N i n j s).b ((j+t)*N + i) = s.a (i*M + (j+t)) := by
  intro n
  induction n with
  | zero => intro j t s ht; omega
  | succ n ih =>
    intro j t s ht
    match t with
    | 0 =>
      rw [transInner_succ, transInner_frame M N i n (j+1) _ _ ?hfr]
      case hfr =>
        intro u hu hto
        have := (cell_inj hi hi hto.symm).1
        omega
      simp [transStep, wr_eq, Nat.add_zero]
    | t+1 =>
      rw [transInner_succ]
      have e : j+(t+1) = (j+1)+t := by omega
      rw [e]
      rw [ih (j+1) t _ (by omega)]
      rfl

lemma transOuter_frame (M N : Nat) : ∀ (n i : Nat) (s : St) (m : Nat),
    (∀ r, r < n → ∀ j, j < M → m ≠ j*N + (i+r)) →
    (transOuter M N n i s).b m = s.b m := by
  intro n
  induction n with
  | zero => intro i s m _; rfl
  | succ n ih =>
    intro i s m h
    rw [transOuter_succ, ih (i+1) _ m ?hrest]
    case hrest =>
      intro r hr j hj
      have e : i+1+r = i+(r+1) := by omega
      rw [e]
      exact h (r+1) (by omega) j hj
    refine transInner_frame M N i M 0 s m ?_
    intro t ht
    have := h 0 (by omega) t ht
    simpa using this

lemma transOuter_val (M N : Nat) : ∀ (n i : Nat), i + n ≤ N →
    ∀ (r j : Nat) (s : St), r < n → j < M →
    (transOuter M N n i s).b (j*N + (i+r)) = s.a ((i+r)*M + j) := by
  intro n
  induction n with
  | zero => intro i _ r j s hr; omega
  | succ n ih =>
    intro i hn r j s hr hj
    match r with
    | 0 =>
      rw [transOuter_succ, transOuter_frame M N n (i+1) _ _ ?hfr]
      case hfr =>
        intro r' hr' j' hj' hto
        have hk0 : i + 0 < N := by omega
        have hk1 : i+1+r' < N := by omega
        have := (cell_inj hk0 hk1 hto).2
        omega
      have hi : i < N := by omega
      have := transInner_val M N i hi M 0 j s hj
      simpa using this
    | r+1 =>
      rw [transOuter_succ]
      have e : i+(r+1) = (i+1)+r := by omega
      rw [e, ih (i+1) (by omega) r j _ (by omega) hj, transInner_a]

/-- `trans` writes the transpose: `B[j][i] = A[i][j]`. -/
lemma trans_val (M N i j : Nat) (s : St) (hi : i < N) (hj : j < M) :
    (trans M N s).b (j*N + i) = s.a (i*M + j) := by
  have := transOuter_val M N N 0 (by omega) i j s hi hj
  simpa using this

/-- `trans` leaves cells outside the output rectangle unchanged. -/
lemma trans_frame (M N : Nat) (s : St) (m : Nat)
    (h : ∀ i, i < N → ∀ j, j < M → m ≠ j*N + i) :
    (trans M N s).b m = s.b m := by
  refine transOuter_frame M N N 0 s m ?_
  intro r hr j hj
  have := h r hr j hj
  simpa using this

lemma trans_a (M N : Nat) (s : St) : (trans M N s).a = s.a :=
  transOuter_a M N N 0 s

/-! ## `transpose32x32`: `A` is untouched, and the final `B` -/

lemma t32Block_a (M N i j : Nat) : ∀ (n k : Nat) (s : St),
    (t32Block M N i j n k s).a = s.a := by
  intro n
  induction n with
  | zero => intro k s; rfl
  | succ n ih => intro k s; rw [t32Block_succ]; exact ih (k+1) _

lemma t32Cols_a (M N i : Nat) : ∀ (n j : Nat) (s : St),
    (t32Cols M N i n j s).a = s.a := by
  intro n
  induction n with
  | zero => intro j s; rfl
  | succ n ih => intro j s; rw [t32Cols_succ, ih (j+8) _, t32Block_a]

lemma t32Rows_a (M N : Nat) : ∀ (n i : Nat) (s : St),
    (t32Rows M N n i s).a = s.a := by
  intro n
  induction n with
  | zero => intro i s; rfl
  | succ n ih => intro i s; rw [t32Rows_succ, ih (i+8) _, t32Cols_a]

/-- Pointwise form of one `transpose32x32` inner iteration's writes. -/
lemma t32Step_b (M N i j k : Nat) (s : St) (m : Nat) :
    (t32Step M N i j k s).b m =
      if m = (j+7)*N + k then s.a (k*M + (j+7))
      else if m = (j+6)*N + k then s.a (k*M + (j+6))
      else if m = (j+5)*N + k then s.a (k*M + (j+5))
      else if m = (j+4)*N + k then s.a (k*M + (j+4))
      else if m = (j+3)*N + k then s.a (k*M + (j+3))
      else if m = (j+2)*N + k then s.a (k*M + (j+2))
      else if m = (j+1)*N + k then s.a (k*M + (j+1))
      else if m = j*N + k then s.a (k*M + j)
      else s.b m := rfl

lemma t32Step_val (M N i j k d : Nat) (s : St) (hk : k < N) (hd : d < 8) :
    (t32Step M N i j k s).b ((j+d)*N + k) = s.a (k*M + (j+d)) := by
  rw [t32Step_b]
  split_ifs with h7 h6 h5 h4 h3 h2 h1 h0
  all_goals try (have hce := (cell_inj hk hk (by assumption)).1; congr 1; omega)
  exfalso
  interval_cases d <;> simp_all

lemma t32Step_frame (M N i j k : Nat) (s : St) (m : Nat)
    (h : ∀ d, d < 8 → m ≠ (j+d)*N + k) :
    (t32Step M N i j k s).b m = s.b m := by
  rw [t32Step_b, if_neg (h 7 (by omega)), if_neg (h 6 (by omega)),
      if_neg (h 5 (by omega)), if_neg (h 4 (by omega)), if_neg (h 3 (by omega)),
      if_neg (h 2 (by omega)), if_neg (h 1 (by omega)),
      if_neg (show m ≠ j*N + k by have := h 0 (by omega); simpa using this)]

lemma t32Block_frame (M N i j : Nat) : ∀ (n k : Nat) (s : St) (m : Nat),
    (∀ t, t < n → ∀ d, d < 8 → m ≠ (j+d)*N + (k+t)) →
    (t32Block M N i j n k s).b m = s.b m := by
  intro n
  induction n with
  | zero => intro k s m _; rfl
  | succ n ih =>
    intro k s m h
    rw [t32Block_succ, ih (k+1) _ m ?hrest]
    case hrest =>
      intro t ht d hd
      have e : k+1+t = k+(t+1) := by omega
      rw [e]
      exact h (t+1) (by omega) d hd
    refine t32Step_frame M N i j k s m ?_
    intro d hd
    have := h 0 (by omega) d hd
    simpa using this

lemma t32Block_val (M N i j : Nat) : ∀ (n k t d : Nat) (s : St), t < n → d < 8 →
    k + n ≤ N →
    (t32Block M N i j n k s).b ((j+d)*N + (k+t)) = s.a ((k+t)*M + (j+d)) := by
  intro n
  induction n with
  | zero => intro k t d s ht; omega
  | succ n ih =>
    intro k t d s ht hd hn
    match t with
    | 0 =>
      rw [t32Block_succ, t32Block_frame M N i j n (k+1) _ _ ?hfr]
      case hfr =>
        intro u hu d' hd' hto
        have hk0 : k + 0 < N := by omega
        have hk1 : k+1+u < N := by omega
        have := (cell_inj hk0 hk1 hto).2
        omega
      have hk : k < N := by omega
      have := t32Step_val M N i j k d s hk hd
      simpa using this
    | t+1 =>
      rw [t32Block_succ]
      have e : k+(t+1) = (k+1)+t := by omega
      rw [e, ih (k+1) t d _ (by omega) hd (by omega)]
      rfl

lemma t32Cols_frame (M N i : Nat) : ∀ (n j : Nat) (s : St) (m : Nat),
    (∀ c, j ≤ c → c < j + 8*n → ∀ t, t < 8 → m ≠ c*N + (i+t)) →
    (t32Cols M N i n j s).b m = s.b m := by
  intro n
  induction n with
  | zero => intro j s m _; rfl
  | succ n ih =>
    intro j s m h
    rw [t32Cols_succ, ih (j+8) _ m ?hrest]
    case hrest =>
      intro c hc1 hc2 t ht
      exact h c (by omega) (by omega) t ht
    refine t32Block_frame M N i j 8 i s m ?_
    intro t ht d hd
    exact h (j+d) (by omega) (by omega) t ht

lemma t32Cols_val (M N i : Nat) (hiN : i + 8 ≤ N) :
    ∀ (n j c t : Nat) (s : St), j ≤ c → c < j + 8*n → t < 8 →
    (t32Cols M N i n j s).b (c*N + (i+t)) = s.a ((i+t)*M + c) := by
  intro n
  induction n with
  | zero => intro j c t s hc1 hc2; omega
  | succ n ih =>
    intro j c t s hc1 hc2 ht
    by_cases hc : c < j + 8
    · rw [t32Cols_succ, t32Cols_frame M N i n (j+8) _ _ ?hfr]
      case hfr =>
        intro c' hc1' hc2' t' ht' hto
        have hk0 : i + t < N := by omega
        have hk1 : i + t' < N := by omega
        obtain ⟨e1, e2⟩ := cell_inj hk0 hk1 hto
        omega
      have hd : c - j < 8 := by omega
      have := t32Block_val M N i j 8 i t (c - j) s ht hd (by omega)
      have e : j + (c - j) = c := by omega
      rw [e] at this
      exact this
    · rw [t32Cols_succ]
      rw [ih (j+8) c t _ (by omega) (by omega) ht, t32Block_a]

lemma t32Rows_frame (M N : Nat) (h8M : 8 ∣ M) : ∀ (n i : Nat) (s : St) (m : Nat),
    (∀ k, i ≤ k → k < i + 8*n → ∀ c, c < M → m ≠ c*N + k) →
    (t32Rows M N n i s).b m = s.b m := by
  have hfuel : 8 * ((M+7)/8) = M := by
    obtain ⟨q, hq⟩ := h8M
    subst hq
    omega
  intro n
  induction n with
  | zero => intro i s m _; rfl
  | succ n ih =>
    intro i s m h
    rw [t32Rows_succ, ih (i+8) _ m ?hrest]
    case hrest =>
      intro k hk1 hk2 c hc
      exact h k (by omega) (by omega) c hc
    refine t32Cols_frame M N i ((M+7)/8) 0 s m ?_
    intro c _ hc2 t ht
    have hcM : c < M := by omega
    exact h (i+t) (by omega) (by omega) c hcM

lemma t32Rows_val (M N : Nat) (h8M : 8 ∣ M) : ∀ (n i k c : Nat) (s : St),
    i + 8*n ≤ N → i ≤ k → k < i + 8*n → c < M →
    (t32Rows M N n i s).b (c*N + k) = s.a (k*M + c) := by
  intro n
  induction n with
  | zero => intro i k c s _ hk1 hk2; omega
  | succ n ih =>
    intro i k c s hn hk1 hk2 hc
    by_cases hk : k < i + 8
    · rw [t32Rows_succ, t32Rows_frame M N h8M n (i+8) _ _ ?hfr]
      case hfr =>
        intro k' hk1' hk2' c' hc' hto
        have hkN : k < N := by omega
        have hkN' : k' < N := by omega
        obtain ⟨e1, e2⟩ := cell_inj hkN hkN' hto
        omega
      have hfuel : 8 * ((M+7)/8) = M := by
        obtain ⟨q, hq⟩ := h8M
        subst hq
        omega
      have := t32Cols_val M N i (by omega) ((M+7)/8) 0 c (k - i) s (by omega)
        (by omega) (by omega)
      have e : i + (k - i) = k := by omega
      rw [e] at this
      exact this
    · rw [t32Rows_succ]
      rw [ih (i+8) k c _ (by omega) (by omega) (by omega) hc, t32Cols_a]

/-- `transpose32x32` computes the transpose for any shape with both
sides positive multiples of 8. -/
lemma transpose32x32_val (M N i j : Nat) (s : St) (h8M : 8 ∣ M) (h8N : 8 ∣ N)
    (hi : i < N) (hj : j < M) :
    (transpose32x32 M N s).b (j*N + i) = s.a (i*M + j) := by
  have hfuel : 8 * ((N+7)/8) = N := by
    obtain ⟨q, hq⟩ := h8N
    subst hq
    omega
  have := t32Rows_val M N h8M ((N+7)/8) 0 i j s (by omega) (by omega) (by omega) hj
  simpa using this

lemma transpose32x32_a (M N : Nat) (s : St) : (transpose32x32 M N s).a = s.a :=
  t32Rows_a M N ((N+7)/8) 0 s

/-! ## `transpose32x64`: `A` is untouched, and the final `B` -/

lemma t3264Asc_a (M N i j : Nat) : ∀ (n k : Nat) (s : St),
    (t3264Asc M N i j n k s).a = s.a := by
  intro n
  induction n with
  | zero => intro k s; rfl
  | succ n ih => intro k s; rw [t3264Asc_succ]; exact ih (k+1) _

lemma t3264Desc_a (M N i j : Nat) : ∀ (n k : Nat) (s : St),
    (t3264Desc M N i j n k s).a = s.a := by
  intro n
  induction n with
  | zero => intro k s; rfl
  | succ n ih => intro k s; rw [t3264Desc_succ]; exact ih (k-1) _

lemma t3264Stripe_a (M N i j : Nat) (s : St) : (t3264Stripe M N i j s).a = s.a := by
  unfold t3264Stripe
  by_cases h : (j/4) % 2 = 0 <;> simp only [h, ite_true, ite_false, if_true, if_false]
  · exact t3264Asc_a M N i j 8 i s
  · exact t3264Desc_a M N i j 8 (i+7) s

lemma t3264Cols_a (M N i : Nat) : ∀ (n j : Nat) (s : St),
    (t3264Cols M N i n j s).a = s.a := by
  intro n
  induction n with
  | zero => intro j s; rfl
  | succ n ih => intro j s; rw [t3264Cols_succ, ih (j+4) _, t3264Stripe_a]

lemma t3264Rows_a (M N : Nat) : ∀ (n i : Nat) (s : St),
    (t3264Rows M N n i s).a = s.a := by
  intro n
  induction n with
  | zero => intro i s; rfl
  | succ n ih => intro i s; rw [t3264Rows_succ, ih (i+8) _, t3264Cols_a]

/-- Pointwise form of one `transpose32x64` inner iteration's writes. -/
lemma t3264Step_b (M N i j k : Nat) (s : St) (m : Nat) :
    (t3264Step M N i j k s).b m =
      if m = (j+3)*N + k then s.a (k*M + (j+3))
      else if m = (j+2)*N + k then s.a (k*M + (j+2))
      else if m = (j+1)*N + k then s.a (k*M + (j+1))
      else if m = j*N + k then s.a (k*M + j)
      else s.b m := rfl

lemma t3264Step_val (M N i j k d : Nat) (s : St) (hk : k < N) (hd : d < 4) :
    (t3264Step M N i j k s).b ((j+d)*N + k) = s.a (k*M + (j+d)) := by
  rw [t3264Step_b]
  split_ifs with h3 h2 h1 h0
  all_goals try (have hce := (cell_inj hk hk (by assumption)).1; congr 1; omega)
  exfalso
  interval_cases d <;> simp_all

lemma t3264Step_frame (M N i j k : Nat) (s : St) (m : Nat)
    (h : ∀ d, d < 4 → m ≠ (j+d)*N + k) :
    (t3264Step M N i j k s).b m = s.b m := by
  rw [t3264Step_b, if_neg (h 3 (by omega)), if_neg (h 2 (by omega)),
      if_neg (h 1 (by omega)),
      if_neg (show m ≠ j*N + k by have := h 0 (by omega); simpa using this)]

lemma t3264Asc_frame (M N i j : Nat) : ∀ (n k : Nat) (s : St) (m : Nat),
    (∀ t, t < n → ∀ d, d < 4 → m ≠ (j+d)*N + (k+t)) →
    (t3264Asc M N i j n k s).b m = s.b m := by
  intro n
  induction n with
  | zero => intro k s m _; rfl
  | succ n ih =>
    intro k s m h
    rw [t3264Asc_succ, ih (k+1) _ m ?hrest]
    case hrest =>
      intro t ht d hd
      have e : k+1+t = k+(t+1) := by omega
      rw [e]
      exact h (t+1) (by omega) d hd
    refine t3264Step_frame M N i j k s m ?_
    intro d hd
    have := h 0 (by omega) d hd
    simpa using this

lemma t3264Asc_val (M N i j : Nat) : ∀ (n k t d : Nat) (s : St), t < n → d < 4 →
    k + n ≤ N →
    (t3264Asc M N i j n k s).b ((j+d)*N + (k+t)) = s.a ((k+t)*M + (j+d)) := by
  intro n
  induction n with
  | zero => intro k t d s ht; omega
  | succ n ih =>
    intro k t d s ht hd hn
    match t with
    | 0 =>
      rw [t3264Asc_succ, t3264Asc_frame M N i j n (k+1) _ _ ?hfr]
      case hfr =>
        intro u hu d' hd' hto
        have hk0 : k + 0 < N := by omega
        have hk1 : k+1+u < N := by omega
        have := (cell_inj hk0 hk1 hto).2
        omega
      have := t3264Step_val M N i j k d s (by omega) hd
      simpa using this
    | t+1 =>
      rw [t3264Asc_succ]
      have e : k+(t+1) = (k+1)+t := by omega
      rw [e, ih (k+1) t d _ (by omega) hd (by omega)]
      rfl

lemma t3264Desc_frame (M N i j : Nat) : ∀ (n k : Nat) (s : St) (m : Nat),
    (∀ t, t < n → ∀ d, d < 4 → m ≠ (j+d)*N + (k-t)) →
    (t3264Desc M N i j n k s).b m = s.b m := by
  intro n
  induction n with
  | zero => intro k s m _; rfl
  | succ n ih =>
    intro k s m h
    rw [t3264Desc_succ, ih (k-1) _ m ?hrest]
    case hrest =>
      intro t ht d hd
      have e : k-1-t = k-(t+1) := by omega
      rw [e]
      exact h (t+1) (by omega) d hd
    refine t3264Step_frame M N i j k s m ?_
    intro d hd
    have := h 0 (by omega) d hd
    simpa using this

lemma t3264Desc_val (M N i j : Nat) : ∀ (n k t d : Nat) (s : St), t < n → d < 4 →
    n ≤ k + 1 → k < N →
    (t3264Desc M N i j n k s).b ((j+d)*N + (k-t)) = s.a ((k-t)*M + (j+d)) := by
  intro n
  induction n with
  | zero => intro k t d s ht; omega
  | succ n ih =>
    intro k t d s ht hd hn hkN
    match t with
    | 0 =>
      rw [t3264Desc_succ, t3264Desc_frame M N i j n (k-1) _ _ ?hfr]
      case hfr =>
        intro u hu d' hd' hto
        have hk0 : k - 0 < N := by omega
        have hk1 : k-1-u < N := by omega
        have := (cell_inj hk0 hk1 hto).2
        omega
      have := t3264Step_val M N i j k d s hkN hd
      simpa using this
    | t+1 =>
      rw [t3264Desc_succ]
      have e : k-(t+1) = (k-1)-t := by omega
      rw [e, ih (k-1) t d _ (by omega) hd (by omega) (by omega)]
      rfl

lemma t3264Stripe_frame (M N i j : Nat) (s : St) (m : Nat)
    (h : ∀ d, d < 4 → ∀ t, t < 8 → m ≠ (j+d)*N + (i+t)) :
    (t3264Stripe M N i j s).b m = s.b m := by
  unfold t3264Stripe
  by_cases hp : (j/4) % 2 = 0 <;> simp only [hp, ite_true, ite_false, if_true, if_false]
  · refine t3264Asc_frame M N i j 8 i s m ?_
    intro t ht d hd
    exact h d hd t ht
  · refine t3264Desc_frame M N i j 8 (i+7) s m ?_
    intro t ht d hd
    have e : i+7-t = i+(7-t) := by omega
    rw [e]
    exact h d hd (7-t) (by omega)

lemma t3264Stripe_val (M N i j d t : Nat) (s : St) (hiN : i + 8 ≤ N)
    (hd : d < 4) (ht : t < 8) :
    (t3264Stripe M N i j s).b ((j+d)*N + (i+t)) = s.a ((i+t)*M + (j+d)) := by
  unfold t3264Stripe
  by_cases hp : (j/4) % 2 = 0 <;> simp only [hp, ite_true, ite_false, if_true, if_false]
  · exact t3264Asc_val M N i j 8 i t d s ht hd (by omega)
  · have e : i+t = (i+7) - (7-t) := by omega
    rw [e]
    exact t3264Desc_val M N i j 8 (i+7) (7-t) d s (by omega) hd (by omega) (by omega)

lemma t3264Cols_frame (M N i : Nat) : ∀ (n j : Nat) (s : St) (m : Nat),
    (∀ c, j ≤ c → c < j + 4*n → ∀ t, t < 8 → m ≠ c*N + (i+t)) →
    (t3264Cols M N i n j s).b m = s.b m := by
  intro n
  induction n with
  | zero => intro j s m _; rfl
  | succ n ih =>
    intro j s m h
    rw [t3264Cols_succ, ih (j+4) _ m ?hrest]
    case hrest =>
      intro c hc1 hc2 t ht
      exact h c (by omega) (by omega) t ht
    refine t3264Stripe_frame M N i j s m ?_
    intro d hd t ht
    exact h (j+d) (by omega) (by omega) t ht

lemma t3264Cols_val (M N i : Nat) (hiN : i + 8 ≤ N) :
    ∀ (n j c t : Nat) (s : St), j ≤ c → c < j + 4*n → t < 8 →
    (t3264Cols M N i n j s).b (c*N + (i+t)) = s.a ((i+t)*M + c) := by
  intro n
  induction n with
  | zero => intro j c t s hc1 hc2; omega
  | succ n ih =>
    intro j c t s hc1 hc2 ht
    by_cases hc : c < j + 4
    · rw [t3264Cols_succ, t3264Cols_frame M N i n (j+4) _ _ ?hfr]
      case hfr =>
        intro c' hc1' hc2' t' ht' hto
        have hk0 : i + t < N := by omega
        have hk1 : i + t' < N := by omega
        obtain ⟨e1, e2⟩ := cell_inj hk0 hk1 hto
        omega
      have hd : c - j < 4 := by omega
      have := t3264Stripe_val M N i j (c-j) t s hiN hd ht
      have e : j + (c - j) = c := by omega
      rw [e] at this
      exact this
    · rw [t3264Cols_succ]
      rw [ih (j+4) c t _ (by omega) (by omega) ht, t3264Stripe_a]

lemma t3264Rows_frame (M N : Nat) (h4M : 4 ∣ M) : ∀ (n i : Nat) (s : St) (m : Nat),
    (∀ k, i ≤ k → k < i + 8*n → ∀ c, c < M → m ≠ c*N + k) →
    (t3264Rows M N n i s).b m = s.b m := by
  have hfuel : 4 * ((M+3)/4) = M := by
    obtain ⟨q, hq⟩ := h4M
    subst hq
    omega
  intro n
  induction n with
  | zero => intro i s m _; rfl
  | succ n ih =>
    intro i s m h
    rw [t3264Rows_succ, ih (i+8) _ m ?hrest]
    case hrest =>
      intro k hk1 hk2 c hc
      exact h k (by omega) (by omega) c hc
    refine t3264Cols_frame M N i ((M+3)/4) 0 s m ?_
    intro c _ hc2 t ht
    have hcM : c < M := by omega
    exact h (i+t) (by omega) (by omega) c hcM

lemma t3264Rows_val (M N : Nat) (h4M : 4 ∣ M) : ∀ (n i k c : Nat) (s : St),
    i + 8*n ≤ N → i ≤ k → k < i + 8*n → c < M →
    (t3264Rows M N n i s).b (c*N + k) = s.a (k*M + c) := by
  have hfuel : 4 * ((M+3)/4) = M := by
    obtain ⟨q, hq⟩ := h4M
    subst hq
    omega
  intro n
  induction n with
  | zero => intro i k c s _ hk1 hk2; omega
  | succ n ih =>
    intro i k c s hn hk1 hk2 hc
    by_cases hk : k < i + 8
    · rw [t3264Rows_succ, t3264Rows_frame M N h4M n (i+8) _ _ ?hfr]
      case hfr =>
        intro k' hk1' hk2' c' hc' hto
        have hkN : k < N := by omega
        have hkN' : k' < N := by omega
        obtain ⟨e1, e2⟩ := cell_inj hkN hkN' hto
        omega
      have := t3264Cols_val M N i (by omega) ((M+3)/4) 0 c (k - i) s (by omega)
        (by omega) (by omega)
      have e : i + (k - i) = k := by omega
      rw [e] at this
      exact this
    · rw [t3264Rows_succ]
      rw [ih (i+8) k c _ (by omega) (by omega) (by omega) hc, t3264Cols_a]

/-- `transpose32x64` computes the transpose whenever the column count is
a multiple of 4 and the row count a multiple of 8. -/
lemma transpose32x64_val (M N i j : Nat) (s : St) (h4M : 4 ∣ M) (h8N : 8 ∣ N)
    (hi : i < N) (hj : j < M) :
    (transpose32x64 M N s).b (j*N + i) = s.a (i*M + j) := by
  have hfuel : 8 * ((N+7)/8) = N := by
    obtain ⟨q, hq⟩ := h8N
    subst hq
    omega
  have := t3264Rows_val M N h4M ((N+7)/8) 0 i j s (by omega) (by omega) (by omega) hj
  simpa using this

lemma transpose32x64_a (M N : Nat) (s : St) : (transpose32x64 M N s).a = s.a :=
  t3264Rows_a M N ((N+7)/8) 0 s

/-! ## `transpose64x64`: step characterizations -/

lemma t64StepE_a (M N i j k : Nat) (s : St64) : (t64StepE M N i j k s).a = s.a := by
  by_cases h : k = i+1 <;> simp [t64StepE, h]

lemma t64StepO_a (M N i j k : Nat) (s : St64) : (t64StepO M N i j k s).a = s.a := by
  by_cases h : k = i+1 <;> simp [t64StepO, h]

/-- The carry after an even-stripe iteration with `k ≠ i+1`. -/
lemma t64StepE_c (M N i j k : Nat) (s : St64) (h : k ≠ i+1) :
    (t64StepE M N i j k s).c4 = s.c4 ∧ (t64StepE M N i j k s).c5 = s.c5 ∧
    (t64StepE M N i j k s).c6 = s.c6 ∧ (t64StepE M N i j k s).c7 = s.c7 := by
  simp [t64StepE, h]

/-- The carry set by the even-stripe iteration at `k = i+1`. -/
lemma t64StepE_cset (M N i j : Nat) (s : St64) :
    (t64StepE M N i j (i+1) s).c4 = s.a ((i+1)*M + (j+4)) ∧
    (t64StepE M N i j (i+1) s).c5 = s.a ((i+1)*M + (j+5)) ∧
    (t64StepE M N i j (i+1) s).c6 = s.a ((i+1)*M + (j+6)) ∧
    (t64StepE M N i j (i+1) s).c7 = s.a ((i+1)*M + (j+7)) := by
  simp [t64StepE]

/-- Odd-stripe iterations never change the carry. -/
lemma t64StepO_c (M N i j k : Nat) (s : St64) :
    (t64StepO M N i j k s).c4 = s.c4 ∧ (t64StepO M N i j k s).c5 = s.c5 ∧
    (t64StepO M N i j k s).c6 = s.c6 ∧ (t64StepO M N i j k s).c7 = s.c7 := by
  by_cases h : k = i+1 <;> simp [t64StepO, h]

/-- Pointwise form of one even-stripe iteration's writes. -/
lemma t64StepE_b (M N i j k : Nat) (s : St64) (m : Nat) :
    (t64StepE M N i j k s).b m =
      if m = (j+3)*N + k then s.a (k*M + (j+3))
      else if m = (j+2)*N + k then s.a (k*M + (j+2))
      else if m = (j+1)*N + k then s.a (k*M + (j+1))
      else if m = j*N + k then s.a (k*M + j)
      else s.b m := by
  by_cases h : k = i+1 <;> simp [t64StepE, h, wr]

/-- Pointwise form of one odd-stripe iteration's writes at `k ≠ i+1`:
fresh reads of `A`. -/
lemma t64StepO_b_ne (M N i j k : Nat) (s : St64) (m : Nat) (h : k ≠ i+1) :
    (t64StepO M N i j k s).b m =
      if m = (j+3)*N + k then s.a (k*M + (j+3))
      else if m = (j+2)*N + k then s.a (k*M + (j+2))
      else if m = (j+1)*N + k then s.a (k*M + (j+1))
      else if m = j*N + k then s.a (k*M + j)
      else s.b m := by
  simp [t64StepO, h, wr]

/-- Pointwise form of the odd-stripe iteration at `k = i+1`: the carry
is stored, `A` is not read. -/
lemma t64StepO_b_eq (M N i j : Nat) (s : St64) (m : Nat) :
    (t64StepO M N i j (i+1) s).b m =
      if m = (j+3)*N + (i+1) then s.c7
      else if m = (j+2)*N + (i+1) then s.c6
      else if m = (j+1)*N + (i+1) then s.c5
      else if m = j*N + (i+1) then s.c4
      else s.b m := by
  simp [t64StepO, wr]

lemma t64StepE_val (M N i j k d : Nat) (s : St64) (hk : k < N) (hd : d < 4) :
    (t64StepE M N i j k s).b ((j+d)*N + k) = s.a (k*M + (j+d)) := by
  rw [t64StepE_b]
  split_ifs with h3 h2 h1 h0
  all_goals try (have hce := (cell_inj hk hk (by assumption)).1; congr 1; omega)
  exfalso
  interval_cases d <;> simp_all

lemma t64StepE_frame (M N i j k : Nat) (s : St64) (m : Nat)
    (h : ∀ d, d < 4 → m ≠ (j+d)*N + k) :
    (t64StepE M N i j k s).b m = s.b m := by
  rw [t64StepE_b, if_neg (h 3 (by omega)), if_neg (h 2 (by omega)),
      if_neg (h 1 (by omega)),
      if_neg (show m ≠ j*N + k by have := h 0 (by omega); simpa using this)]

lemma t64StepO_frame (M N i j k : Nat) (s : St64) (m : Nat)
    (h : ∀ d, d < 4 → m ≠ (j+d)*N + k) :
    (t64StepO M N i j k s).b m = s.b m := by
  by_cases hki : k = i+1
  · subst hki
    rw [t64StepO_b_eq, if_neg (h 3 (by omega)), if_neg (h 2 (by omega)),
        if_neg (h 1 (by omega)),
        if_neg (show m ≠ j*N + (i+1) by have := h 0 (by omega); simpa using this)]
  · rw [t64StepO_b_ne M N i j k s m hki, if_neg (h 3 (by omega)),
        if_neg (h 2 (by omega)), if_neg (h 1 (by omega)),
        if_neg (show m ≠ j*N + k by have := h 0 (by omega); simpa using this)]

lemma t64StepO_val_A (M N i j k d : Nat) (s : St64) (hk : k < N) (hd : d < 4)
    (hki : k ≠ i+1) :
    (t64StepO M N i j k s).b ((j+d)*N + k) = s.a (k*M + (j+d)) := by
  rw [t64StepO_b_ne M N i j k s _ hki]
  split_ifs with h3 h2 h1 h0
  all_goals try (have hce := (cell_inj hk hk (by assumption)).1; congr 1; omega)
  exfalso
  interval_cases d <;> simp_all

lemma t64StepO_val_C (M N i j : Nat) (s : St64) (hk : i+1 < N) :
    (t64StepO M N i j (i+1) s).b (j*N + (i+1)) = s.c4 ∧
    (t64StepO M N i j (i+1) s).b ((j+1)*N + (i+1)) = s.c5 ∧
    (t64StepO M N i j (i+1) s).b ((j+2)*N + (i+1)) = s.c6 ∧
    (t64StepO M N i j (i+1) s).b ((j+3)*N + (i+1)) = s.c7 := by
  have hne : ∀ d e : Nat, d ≠ e → (j+d)*N + (i+1) ≠ (j+e)*N + (i+1) := by
    intro d e hde hto
    have := (cell_inj hk hk hto).1
    omega
  refine ⟨?_, ?_, ?_, ?_⟩ <;> rw [t64StepO_b_eq]
  · rw [if_neg (show j*N+(i+1) ≠ (j+3)*N+(i+1) by
        have := hne 0 3 (by omega); simpa using this),
      if_neg (show j*N+(i+1) ≠ (j+2)*N+(i+1) by
        have := hne 0 2 (by omega); simpa using this),
      if_neg (show j*N+(i+1) ≠ (j+1)*N+(i+1) by
        have := hne 0 1 (by omega); simpa using this), if_pos rfl]
  · rw [if_neg (hne 1 3 (by omega)), if_neg (hne 1 2 (by omega)), if_pos rfl]
  · rw [if_neg (hne 2 3 (by omega)), if_pos rfl]
  · rw [if_pos rfl]

/-! ## `transpose64x64`: even-stripe loop -/

lemma t64LoopE_a (M N i j : Nat) : ∀ (n k : Nat) (s : St64),
    (t64LoopE M N i j n k s).a = s.a := by
  intro n
  induction n with
  | zero => intro k s; rfl
  | succ n ih => intro k s; rw [t64LoopE_succ, ih (k+1) _, t64StepE_a]

lemma t64LoopO_a (M N i j : Nat) : ∀ (n k : Nat) (s : St64),
    (t64LoopO M N i j n k s).a = s.a := by
  intro n
  induction n with
  | zero => intro k s; rfl
  | succ n ih => intro k s; rw [t64LoopO_succ, ih (k-1) _, t64StepO_a]

lemma t64LoopO_c (M N i j : Nat) : ∀ (n k : Nat) (s : St64),
    (t64LoopO M N i j n k s).c4 = s.c4 ∧ (t64LoopO M N i j n k s).c5 = s.c5 ∧
    (t64LoopO M N i j n k s).c6 = s.c6 ∧ (t64LoopO M N i j n k s).c7 = s.c7 := by
  intro n
  induction n with
  | zero => intro k s; exact ⟨rfl, rfl, rfl, rfl⟩
  | succ n ih =>
    intro k s
    rw [t64LoopO_succ]
    obtain ⟨e4, e5, e6, e7⟩ := ih (k-1) (t64StepO M N i j k s)
    obtain ⟨f4, f5, f6, f7⟩ := t64StepO_c M N i j k s
    exact ⟨by rw [e4, f4], by rw [e5, f5], by rw [e6, f6], by rw [e7, f7]⟩

/-- The even-stripe loop leaves the carry alone when `i+1` is outside
its iteration window. -/
lemma t64LoopE_cfr (M N i j : Nat) : ∀ (n k : Nat) (s : St64),
    (i+1 < k ∨ k + n ≤ i+1) →
    (t64LoopE M N i j n k s).c4 = s.c4 ∧ (t64LoopE M N i j n k s).c5 = s.c5 ∧
    (t64LoopE M N i j n k s).c6 = s.c6 ∧ (t64LoopE M N i j n k s).c7 = s.c7 := by
  intro n
  induction n with
  | zero => intro k s _; exact ⟨rfl, rfl, rfl, rfl⟩
  | succ n ih =>
    intro k s hw
    rw [t64LoopE_succ]
    obtain ⟨e4, e5, e6, e7⟩ := ih (k+1) (t64StepE M N i j k s) (by omega)
    obtain ⟨f4, f5, f6, f7⟩ := t64StepE_c M N i j k s (by omega)
    exact ⟨by rw [e4, f4], by rw [e5, f5], by rw [e6, f6], by rw [e7, f7]⟩

/-- After an even-stripe loop whose window contains `i+1`, the carry
holds `A[i+1][j+4..j+7]`. -/
lemma t64LoopE_carry (M N i j : Nat) : ∀ (n k : Nat) (s : St64),
    k ≤ i+1 → i+1 < k + n →
    (t64LoopE M N i j n k s).c4 = s.a ((i+1)*M + (j+4)) ∧
    (t64LoopE M N i j n k s).c5 = s.a ((i+1)*M + (j+5)) ∧
    (t64LoopE M N i j n k s).c6 = s.a ((i+1)*M + (j+6)) ∧
    (t64LoopE M N i j n k s).c7 = s.a ((i+1)*M + (j+7)) := by
  intro n
  induction n with
  | zero => intro k s h1 h2; omega
  | succ n ih =>
    intro k s h1 h2
    rw [t64LoopE_succ]
    by_cases hk : k = i+1
    · subst hk
      obtain ⟨e4, e5, e6, e7⟩ :=
        t64LoopE_cfr M N i j n (i+1+1) (t64StepE M N i j (i+1) s) (by omega)
      obtain ⟨f4, f5, f6, f7⟩ := t64StepE_cset M N i j s
      exact ⟨by rw [e4, f4], by rw [e5, f5], by rw [e6, f6], by rw [e7, f7]⟩
    · obtain ⟨e4, e5, e6, e7⟩ := ih (k+1) (t64StepE M N i j k s) (by omega) (by omega)
      rw [t64StepE_a] at e4 e5 e6 e7
      exact ⟨e4, e5, e6, e7⟩

lemma t64LoopE_frame (M N i j : Nat) : ∀ (n k : Nat) (s : St64) (m : Nat),
    (∀ t, t < n → ∀ d, d < 4 → m ≠ (j+d)*N + (k+t)) →
    (t64LoopE M N i j n k s).b m = s.b m := by
  intro n
  induction n with
  | zero => intro k s m _; rfl
  | succ n ih =>
    intro k s m h
    rw [t64LoopE_succ, ih (k+1) _ m ?hrest]
    case hrest =>
      intro t ht d hd
      have e : k+1+t = k+(t+1) := by omega
      rw [e]
      exact h (t+1) (by omega) d hd
    refine t64StepE_frame M N i j k s m ?_
    intro d hd
    have := h 0 (by omega) d hd
    simpa using this

lemma t64LoopE_val (M N i j : Nat) : ∀ (n k t d : Nat) (s : St64), t < n → d < 4 →
    k + n ≤ N →
    (t64LoopE M N i j n k s).b ((j+d)*N + (k+t)) = s.a ((k+t)*M + (j+d)) := by
  intro n
  induction n with
  | zero => intro k t d s ht; omega
  | succ n ih =>
    intro k t d s ht hd hn
    match t with
    | 0 =>
      rw [t64LoopE_succ, t64LoopE_frame M N i j n (k+1) _ _ ?hfr]
      case hfr =>
        intro u hu d' hd' hto
        have hk0 : k + 0 < N := by omega
        have hk1 : k+1+u < N := by omega
        have := (cell_inj hk0 hk1 hto).2
        omega
      have := t64StepE_val M N i j k d s (by omega) hd
      simpa using this
    | t+1 =>
      rw [t64LoopE_succ]
      have e : k+(t+1) = (k+1)+t := by omega
      rw [e, ih (k+1) t d _ (by omega) hd (by omega), t64StepE_a]

/-! ## `transpose64x64`: odd-stripe loop -/

lemma t64LoopO_frame (M N i j : Nat) : ∀ (n k : Nat) (s : St64) (m : Nat),
    (∀ t, t < n → ∀ d, d < 4 → m ≠ (j+d)*N + (k-t)) →
    (t64LoopO M N i j n k s).b m = s.b m := by
  intro n
  induction n with
  | zero => intro k s m _; rfl
  | succ n ih =>
    intro k s m h
    rw [t64LoopO_succ, ih (k-1) _ m ?hrest]
    case hrest =>
      intro t ht d hd
      have e : k-1-t = k-(t+1) := by omega
      rw [e]
      exact h (t+1) (by omega) d hd
    refine t64StepO_frame M N i j k s m ?_
    intro d hd
    have := h 0 (by omega) d hd
    simpa using this

/-- Odd-stripe values at rows other than `i+1` come from `A`. -/
lemma t64LoopO_val_A (M N i j : Nat) : ∀ (n k t d : Nat) (s : St64), t < n → d < 4 →
    n ≤ k + 1 → k < N → k - t ≠ i+1 →
    (t64LoopO M N i j n k s).b ((j+d)*N + (k-t)) = s.a ((k-t)*M + (j+d)) := by
  intro n
  induction n with
  | zero => intro k t d s ht; omega
  | succ n ih =>
    intro k t d s ht hd hn hkN hrow
    match t with
    | 0 =>
      rw [t64LoopO_succ, t64LoopO_frame M N i j n (k-1) _ _ ?hfr]
      case hfr =>
        intro u hu d' hd' hto
        have hk0 : k - 0 < N := by omega
        have hk1 : k-1-u < N := by omega
        have := (cell_inj hk0 hk1 hto).2
        omega
      have hki : k ≠ i+1 := by simpa using hrow
      have := t64StepO_val_A M N i j k d s hkN hd hki
      simpa using this
    | t+1 =>
      rw [t64LoopO_succ]
      have e : k-(t+1) = (k-1)-t := by omega
      rw [e, ih (k-1) t d _ (by omega) hd (by omega) (by omega) (by omega), t64StepO_a]

/-- Odd-stripe values at row `i+1` come from the incoming carry. -/
lemma t64LoopO_val_C (M N i j : Nat) : ∀ (n k : Nat) (s : St64),
    n ≤ k + 1 → k < N → k+1 ≤ i+1+n → i+1 ≤ k →
    (t64LoopO M N i j n k s).b (j*N + (i+1)) = s.c4 ∧
    (t64LoopO M N i j n k s).b ((j+1)*N + (i+1)) = s.c5 ∧
    (t64LoopO M N i j n k s).b ((j+2)*N + (i+1)) = s.c6 ∧
    (t64LoopO M N i j n k s).b ((j+3)*N + (i+1)) = s.c7 := by
  intro n
  induction n with
  | zero => intro k s h1 h2 h3 h4; omega
  | succ n ih =>
    intro k s h1 h2 h3 h4
    rw [t64LoopO_succ]
    by_cases hk : k = i+1
    · subst hk
      have hfr : ∀ d, d < 4 →
          (t64LoopO M N i j n ((i+1)-1) (t64StepO M N i j (i+1) s)).b ((j+d)*N + (i+1))
            = (t64StepO M N i j (i+1) s).b ((j+d)*N + (i+1)) := by
        intro d hd
        refine t64LoopO_frame M N i j n (i+1-1) _ _ ?_
        intro u hu d' hd' hto
        have hk0 : i+1 < N := h2
        have hk1 : i+1-1-u < N := by omega
        have := (cell_inj hk0 hk1 hto).2
        omega
      obtain ⟨f4, f5, f6, f7⟩ := t64StepO_val_C M N i j s h2
      have h0 := hfr 0 (by omega)
      have h1' := hfr 1 (by omega)
      have h2' := hfr 2 (by omega)
      have h3' := hfr 3 (by omega)
      simp only [Nat.add_zero] at h0
      refine ⟨?_, ?_, ?_, ?_⟩
      · rw [h0, f4]
      · rw [h1', f5]
      · rw [h2', f6]
      · rw [h3', f7]
    · obtain ⟨e4, e5, e6, e7⟩ :=
        ih (k-1) (t64StepO M N i j k s) (by omega) (by omega) (by omega) (by omega)
      obtain ⟨f4, f5, f6, f7⟩ := t64StepO_c M N i j k s
      exact ⟨by rw [e4, f4], by rw [e5, f5], by rw [e6, f6], by rw [e7, f7]⟩

/-! ## `transpose64x64`: stripes, stripe pairs, bands -/

lemma parity_even {j : Nat} (h : 8 ∣ j) : (j/4) % 2 = 0 := by
  obtain ⟨q, hq⟩ := h
  subst hq
  omega

lemma parity_odd {j : Nat} (h : 8 ∣ j) : ((j+4)/4) % 2 = 1 := by
  obtain ⟨q, hq⟩ := h
  subst hq
  omega

lemma t64Stripe_a (M N i j : Nat) (s : St64) : (t64Stripe M N i j s).a = s.a := by
  unfold t64Stripe
  by_cases h : (j/4) % 2 = 0 <;> simp only [h, ite_true, ite_false, if_true, if_false]
  · exact t64LoopE_a M N i j 8 i s
  · exact t64LoopO_a M N i j 8 (i+7) s

lemma t64Stripe_frame (M N i j : Nat) (s : St64) (m : Nat)
    (h : ∀ d, d < 4 → ∀ t, t < 8 → m ≠ (j+d)*N + (i+t)) :
    (t64Stripe M N i j s).b m = s.b m := by
  unfold t64Stripe
  by_cases hp : (j/4) % 2 = 0 <;> simp only [hp, ite_true, ite_false, if_true, if_false]
  · refine t64LoopE_frame M N i j 8 i s m ?_
    intro t ht d hd
    exact h d hd t ht
  · refine t64LoopO_frame M N i j 8 (i+7) s m ?_
    intro t ht d hd
    have e : i+7-t = i+(7-t) := by omega
    rw [e]
    exact h d hd (7-t) (by omega)

/-- One even/odd stripe pair writes the full 8×8 sub-block of `B`
correctly: the carry hands `A[i+1][j+4..j+7]` across the boundary. -/
lemma t64Pair_val (M N i j d t : Nat) (s : St64) (h8j : 8 ∣ j) (hiN : i + 8 ≤ N)
    (hd : d < 8) (ht : t < 8) :
    (t64Stripe M N i (j+4) (t64Stripe M N i j s)).b ((j+d)*N + (i+t))
      = s.a ((i+t)*M + (j+d)) := by
  have he : t64Stripe M N i j s = t64LoopE M N i j 8 i s := by
    unfold t64Stripe
    rw [if_pos (parity_even h8j)]
  have ho : ∀ s' : St64, t64Stripe M N i (j+4) s' = t64LoopO M N i (j+4) 8 (i+7) s' := by
    intro s'
    unfold t64Stripe
    rw [if_neg (by have := parity_odd h8j; omega)]
  rw [ho, he]
  by_cases hd4 : d < 4
  · rw [t64LoopO_frame M N i (j+4) 8 (i+7) _ _ ?hfr]
    case hfr =>
      intro u hu d' hd' hto
      have hk0 : i + t < N := by omega
      have hk1 : i+7-u < N := by omega
      have := (cell_inj hk0 hk1 hto).1
      omega
    exact t64LoopE_val M N i j 8 i t d s ht hd4 (by omega)
  · set s1 := t64LoopE M N i j 8 i s with hs1
    by_cases ht1 : t = 1
    · subst ht1
      obtain ⟨c4, c5, c6, c7⟩ :=
        t64LoopO_val_C M N i (j+4) 8 (i+7) s1 (by omega) (by omega) (by omega) (by omega)
      obtain ⟨g4, g5, g6, g7⟩ := t64LoopE_carry M N i j 8 i s (by omega) (by omega)
      rw [← hs1] at g4 g5 g6 g7
      rw [show (j+4)+1 = j+5 from by omega] at c5
      rw [show (j+4)+2 = j+6 from by omega] at c6
      rw [show (j+4)+3 = j+7 from by omega] at c7
      interval_cases d
      · rw [c4, g4]
      · rw [c5, g5]
      · rw [c6, g6]
      · rw [c7, g7]
    · have hrow : (i+7) - (7-t) ≠ i+1 := by omega
      have hA := t64LoopO_val_A M N i (j+4) 8 (i+7) (7-t) (d-4) s1 (by omega) (by omega)
        (by omega) (by omega) hrow
      rw [show (i+7) - (7-t) = i+t from by omega] at hA
      rw [show (j+4)+(d-4) = j+d from by omega] at hA
      rw [hA, hs1, t64LoopE_a]

lemma t64Cols_a (M N i : Nat) : ∀ (n j : Nat) (s : St64),
    (t64Cols M N i n j s).a = s.a := by
  intro n
  induction n with
  | zero => intro j s; rfl
  | succ n ih => intro j s; rw [t64Cols_succ, ih (j+4) _, t64Stripe_a]

lemma t64Rows_a (M N : Nat) : ∀ (n i : Nat) (s : St64),
    (t64Rows M N n i s).a = s.a := by
  intro n
  induction n with
  | zero => intro i s; rfl
  | succ n ih => intro i s; rw [t64Rows_succ, ih (i+8) _, t64Cols_a]

lemma t64Cols_frame (M N i : Nat) : ∀ (n j : Nat) (s : St64) (m : Nat),
    (∀ c, j ≤ c → c < j + 4*n → ∀ t, t < 8 → m ≠ c*N + (i+t)) →
    (t64Cols M N i n j s).b m = s.b m := by
  intro n
  induction n with
  | zero => intro j s m _; rfl
  | succ n ih =>
    intro j s m h
    rw [t64Cols_succ, ih (j+4) _ m ?hrest]
    case hrest =>
      intro c hc1 hc2 t ht
      exact h c (by omega) (by omega) t ht
    refine t64Stripe_frame M N i j s m ?_
    intro d hd t ht
    exact h (j+d) (by omega) (by omega) t ht

lemma t64Cols_val (M N i : Nat) (hiN : i + 8 ≤ N) : ∀ (q j c t : Nat) (s : St64),
    8 ∣ j → j ≤ c → c < j + 8*q → t < 8 →
    (t64Cols M N i (2*q) j s).b (c*N + (i+t)) = s.a ((i+t)*M + c) := by
  intro q
  induction q with
  | zero => intro j c t s _ hc1 hc2; omega
  | succ q ih =>
    intro j c t s h8j hc1 hc2 ht
    rw [show 2*(q+1) = (2*q+1)+1 from by omega, t64Cols_succ, t64Cols_succ,
        show j+4+4 = j+8 from by omega]
    by_cases hc : c < j + 8
    · rw [t64Cols_frame M N i (2*q) (j+8) _ _ ?hfr]
      case hfr =>
        intro c' hc1' hc2' t' ht' hto
        have hk0 : i + t < N := by omega
        have hk1 : i + t' < N := by omega
        obtain ⟨e1, e2⟩ := cell_inj hk0 hk1 hto
        omega
      have := t64Pair_val M N i j (c-j) t s h8j hiN (by omega) ht
      rw [show j + (c-j) = c from by omega] at this
      exact this
    · rw [ih (j+8) c t _ (by omega) (by omega) (by omega) ht,
          t64Stripe_a, t64Stripe_a]

lemma t64Rows_frame (M N : Nat) (h8M : 8 ∣ M) : ∀ (n i : Nat) (s : St64) (m : Nat),
    (∀ k, i ≤ k → k < i + 8*n → ∀ c, c < M → m ≠ c*N + k) →
    (t64Rows M N n i s).b m = s.b m := by
  have hfuel : 4 * ((M+3)/4) = M := by
    obtain ⟨q, hq⟩ := h8M
    subst hq
    omega
  intro n
  induction n with
  | zero => intro i s m _; rfl
  | succ n ih =>
    intro i s m h
    rw [t64Rows_succ, ih (i+8) _ m ?hrest]
    case hrest =>
      intro k hk1 hk2 c hc
      exact h k (by omega) (by omega) c hc
    refine t64Cols_frame M N i ((M+3)/4) 0 s m ?_
    intro c _ hc2 t ht
    have hcM : c < M := by omega
    exact h (i+t) (by omega) (by omega) c hcM

lemma t64Rows_val (M N : Nat) (h8M : 8 ∣ M) : ∀ (n i k c : Nat) (s : St64),
    i + 8*n ≤ N → i ≤ k → k < i + 8*n → c < M →
    (t64Rows M N n i s).b (c*N + k) = s.a (k*M + c) := by
  intro n
  induction n with
  | zero => intro i k c s _ hk1 hk2; omega
  | succ n ih =>
    intro i k c s hn hk1 hk2 hc
    by_cases hk : k < i + 8
    · rw [t64Rows_succ, t64Rows_frame M N h8M n (i+8) _ _ ?hfr]
      case hfr =>
        intro k' hk1' hk2' c' hc' hto
        have hkN : k < N := by omega
        have hkN' : k' < N := by omega
        obtain ⟨e1, e2⟩ := cell_inj hkN hkN' hto
        omega
      obtain ⟨q, hq⟩ := h8M
      have hfq : (M+3)/4 = 2*q := by omega
      rw [hfq]
      have := t64Cols_val M N i (by omega) q 0 c (k-i) s (by omega) (by omega)
        (by omega) (by omega)
      rw [show i + (k-i) = k from by omega] at this
      exact this
    · rw [t64Rows_succ]
      rw [ih (i+8) k c _ (by omega) (by omega) (by omega) hc, t64Cols_a]

/-- The buffers of `t64Run` come from its inner loop nest. -/
lemma t64Run_b (M N : Nat) (s : St) :
    (t64Run M N s).b = (t64Rows M N ((N+7)/8) 0 ⟨s.a, s.b, 0, 0, 0, 0, s.tr⟩).b := rfl

lemma t64Run_a (M N : Nat) (s : St) : (t64Run M N s).a = s.a := by
  rw [show (t64Run M N s).a
      = (t64Rows M N ((N+7)/8) 0 ⟨s.a, s.b, 0, 0, 0, 0, s.tr⟩).a from rfl,
    t64Rows_a]

/-- `transpose64x64` computes the transpose for any shape with both
sides positive multiples of 8. -/
lemma transpose64x64_val (M N i j : Nat) (s : St) (h8M : 8 ∣ M) (h8N : 8 ∣ N)
    (hi : i < N) (hj : j < M) :
    (transpose64x64 M N s).b (j*N + i) = s.a (i*M + j) := by
  have hfuel : 8 * ((N+7)/8) = N := by
    obtain ⟨q, hq⟩ := h8N
    subst hq
    omega
  show (t64Run M N s).b (j*N + i) = s.a (i*M + j)
  rw [t64Run_b]
  have := t64Rows_val M N h8M ((N+7)/8) 0 i j ⟨s.a, s.b, 0, 0, 0, 0, s.tr⟩
    (by omega) (by omega) (by omega) hj
  simpa using this

lemma transpose64x64_a (M N : Nat) (s : St) : (transpose64x64 M N s).a = s.a :=
  t64Run_a M N s

/-- `test` is the same loop nest, so it shares both properties. -/
lemma test_val (M N i j : Nat) (s : St) (h8M : 8 ∣ M) (h8N : 8 ∣ N)
    (hi : i < N) (hj : j < M) :
    (test M N s).b (j*N + i) = s.a (i*M + j) :=
  transpose64x64_val M N i j s h8M h8N hi hj

lemma test_a (M N : Nat) (s : St) : (test M N s).a = s.a :=
  t64Run_a M N s

/-! ## Trace bounds: every access of each routine names indices inside
the rectangles spanned by its loop ranges. -/

lemma t64StepE_bound (M N i j k : Nat) (s : St64) : ∀ e, e ∈ (t64StepE M N i j k s).tr →
    e ∈ s.tr ∨
    (∃ r c, e = Acc.rdA r c ∧ r = k ∧ j ≤ c ∧ c < j+8) ∨
    (∃ r c, e = Acc.wrB r c ∧ j ≤ r ∧ r < j+4 ∧ c = k) := by
  intro e he
  by_cases h : k = i+1 <;> simp only [t64StepE, h, if_true, if_false, ite_true,
    ite_false, List.mem_cons] at he
  · rcases he with rfl|rfl|rfl|rfl|rfl|rfl|rfl|rfl|rfl|rfl|rfl|rfl|he
    all_goals try (exact Or.inr (Or.inl ⟨_, _, rfl, by omega, by omega, by omega⟩))
    all_goals try (exact Or.inr (Or.inr ⟨_, _, rfl, by omega, by omega, by omega⟩))
    exact Or.inl he
  · rcases he with rfl|rfl|rfl|rfl|rfl|rfl|rfl|rfl|he
    all_goals try (exact Or.inr (Or.inl ⟨_, _, rfl, by omega, by omega, by omega⟩))
    all_goals try (exact Or.inr (Or.inr ⟨_, _, rfl, by omega, by omega, by omega⟩))
    exact Or.inl he

lemma t64StepO_bound (M N i j k : Nat) (s : St64) : ∀ e, e ∈ (t64StepO M N i j k s).tr →
    e ∈ s.tr ∨
    (∃ r c, e = Acc.rdA r c ∧ r = k ∧ j ≤ c ∧ c < j+4) ∨
    (∃ r c, e = Acc.wrB r c ∧ j ≤ r ∧ r < j+4 ∧ c = k) := by
  intro e he
  by_cases h : k = i+1 <;> simp only [t64StepO, h, if_true, if_false, ite_true,
    ite_false, List.mem_cons] at he
  · rcases he with rfl|rfl|rfl|rfl|he
    all_goals try (exact Or.inr (Or.inr ⟨_, _, rfl, by omega, by omega, by omega⟩))
    exact Or.inl he
  · rcases he with rfl|rfl|rfl|rfl|rfl|rfl|rfl|rfl|he
    all_goals try (exact Or.inr (Or.inl ⟨_, _, rfl, by omega, by omega, by omega⟩))
    all_goals try (exact Or.inr (Or.inr ⟨_, _, rfl, by omega, by omega, by omega⟩))
    exact Or.inl he

lemma t64LoopE_bound (M N i j : Nat) : ∀ (n k : Nat) (s : St64) (e : Acc),
    e ∈ (t64LoopE M N i j n k s).tr →
    e ∈ s.tr ∨
    (∃ r c, e = Acc.rdA r c ∧ k ≤ r ∧ r < k+n ∧ j ≤ c ∧ c < j+8) ∨
    (∃ r c, e = Acc.wrB r c ∧ j ≤ r ∧ r < j+4 ∧ k ≤ c ∧ c < k+n) := by
  intro n
  induction n with
  | zero => intro k s e he; exact Or.inl he
  | succ n ih =>
    intro k s e he
    rw [t64LoopE_succ] at he
    rcases ih (k+1) _ e he with h | ⟨r, c, rfl, h1, h2, h3, h4⟩ | ⟨r, c, rfl, h1, h2, h3, h4⟩
    · rcases t64StepE_bound M N i j k s e h with h | ⟨r, c, rfl, h1, h2, h3⟩ | ⟨r, c, rfl, h1, h2, h3⟩
      · exact Or.inl h
      · exact Or.inr (Or.inl ⟨r, c, rfl, by omega, by omega, h2, h3⟩)
      · exact Or.inr (Or.inr ⟨r, c, rfl, h1, h2, by omega, by omega⟩)
    · exact Or.inr (Or.inl ⟨r, c, rfl, by omega, by omega, h3, h4⟩)
    · exact Or.inr (Or.inr ⟨r, c, rfl, h1, h2, by omega, by omega⟩)

lemma t64LoopO_bound (M N i j : Nat) : ∀ (n k : Nat) (s : St64) (e : Acc),
    e ∈ (t64LoopO M N i j n k s).tr →
    e ∈ s.tr ∨
    (∃ r c, e = Acc.rdA r c ∧ r ≤ k ∧ k+1 ≤ r+n ∧ j ≤ c ∧ c < j+4) ∨
    (∃ r c, e = Acc.wrB r c ∧ j ≤ r ∧ r < j+4 ∧ c ≤ k ∧ k+1 ≤ c+n) := by
  intro n
  induction n with
  | zero => intro k s e he; exact Or.inl he
  | succ n ih =>
    intro k s e he
    rw [t64LoopO_succ] at he
    rcases ih (k-1) _ e he with h | ⟨r, c, rfl, h1, h2, h3, h4⟩ | ⟨r, c, rfl, h1, h2, h3, h4⟩
    · rcases t64StepO_bound M N i j k s e h with h | ⟨r, c, rfl, h1, h2, h3⟩ | ⟨r, c, rfl, h1, h2, h3⟩
      · exact Or.inl h
      · exact Or.inr (Or.inl ⟨r, c, rfl, by omega, by omega, h2, h3⟩)
      · exact Or.inr (Or.inr ⟨r, c, rfl, h1, h2, by omega, by omega⟩)
    · by_cases hk : k = 0
      · exact Or.inr (Or.inl ⟨r, c, rfl, by omega, by omega, h3, h4⟩)
      · exact Or.inr (Or.inl ⟨r, c, rfl, by omega, by omega, h3, h4⟩)
    · by_cases hk : k = 0
      · exact Or.inr (Or.inr ⟨r, c, rfl, h1, h2, by omega, by omega⟩)
      · exact Or.inr (Or.inr ⟨r, c, rfl, h1, h2, by omega, by omega⟩)

lemma t64Stripe_bound (M N i j : Nat) (s : St64) : ∀ e, e ∈ (t64Stripe M N i j s).tr →
    e ∈ s.tr ∨
    (∃ r c, e = Acc.rdA r c ∧ i ≤ r ∧ r < i+8 ∧ j ≤ c ∧ c < j+8) ∨
    (∃ r c, e = Acc.wrB r c ∧ j ≤ r ∧ r < j+4 ∧ i ≤ c ∧ c < i+8) := by
  intro e he
  unfold t64Stripe at he
  by_cases hp : (j/4) % 2 = 0 <;>
    simp only [hp, ite_true, ite_false, if_true, if_false] at he
  · rcases t64LoopE_bound M N i j 8 i s e he with h | ⟨r, c, rfl, h1, h2, h3, h4⟩ | ⟨r, c, rfl, h1, h2, h3, h4⟩
    · exact Or.inl h
    · exact Or.inr (Or.inl ⟨r, c, rfl, h1, h2, h3, h4⟩)
    · exact Or.inr (Or.inr ⟨r, c, rfl, h1, h2, h3, h4⟩)
  · rcases t64LoopO_bound M N i j 8 (i+7) s e he with h | ⟨r, c, rfl, h1, h2, h3, h4⟩ | ⟨r, c, rfl, h1, h2, h3, h4⟩
    · exact Or.inl h
    · exact Or.inr (Or.inl ⟨r, c, rfl, by omega, by omega, h3, by omega⟩)
    · exact Or.inr (Or.inr ⟨r, c, rfl, h1, h2, by omega, by omega⟩)

lemma t64Cols_bound (M N i : Nat) : ∀ (q j : Nat) (s : St64) (e : Acc), 8 ∣ j →
    e ∈ (t64Cols M N i (2*q) j s).tr →
    e ∈ s.tr ∨
    (∃ r c, e = Acc.rdA r c ∧ i ≤ r ∧ r < i+8 ∧ j ≤ c ∧ c < j+8*q) ∨
    (∃ r c, e = Acc.wrB r c ∧ j ≤ r ∧ r < j+8*q ∧ i ≤ c ∧ c < i+8) := by
  intro q
  induction q with
  | zero => intro j s e _ he; exact Or.inl he
  | succ q ih =>
    intro j s e h8j he
    rw [show 2*(q+1) = (2*q+1)+1 from by omega, t64Cols_succ, t64Cols_succ,
        show j+4+4 = j+8 from by omega] at he
    have hev : t64Stripe M N i j s = t64LoopE M N i j 8 i s := by
      unfold t64Stripe
      rw [if_pos (parity_even h8j)]
    have hod : ∀ s' : St64,
        t64Stripe M N i (j+4) s' = t64LoopO M N i (j+4) 8 (i+7) s' := by
      intro s'
      unfold t64Stripe
      rw [if_neg (by have := parity_odd h8j; omega)]
    rcases ih (j+8) _ e (by omega) he with h | ⟨r, c, rfl, h1, h2, h3, h4⟩ | ⟨r, c, rfl, h1, h2, h3, h4⟩
    · rw [hod, hev] at h
      rcases t64LoopO_bound M N i (j+4) 8 (i+7) _ e h
        with h | ⟨r, c, rfl, h1, h2, h3, h4⟩ | ⟨r, c, rfl, h1, h2, h3, h4⟩
      · rcases t64LoopE_bound M N i j 8 i s e h
          with h | ⟨r, c, rfl, h1, h2, h3, h4⟩ | ⟨r, c, rfl, h1, h2, h3, h4⟩
        · exact Or.inl h
        · exact Or.inr (Or.inl ⟨r, c, rfl, h1, by omega, h3, by omega⟩)
        · exact Or.inr (Or.inr ⟨r, c, rfl, h1, by omega, h3, by omega⟩)
      · exact Or.inr (Or.inl ⟨r, c, rfl, by omega, by omega, by omega, by omega⟩)
      · exact Or.inr (Or.inr ⟨r, c, rfl, by omega, by omega, by omega, by omega⟩)
    · exact Or.inr (Or.inl ⟨r, c, rfl, h1, h2, by omega, by omega⟩)
    · exact Or.inr (Or.inr ⟨r, c, rfl, by omega, by omega, h3, h4⟩)

lemma t64Rows_bound (M N : Nat) (h8M : 8 ∣ M) : ∀ (n i : Nat) (s : St64) (e : Acc),
    e ∈ (t64Rows M N n i s).tr →
    e ∈ s.tr ∨
    (∃ r c, e = Acc.rdA r c ∧ i ≤ r ∧ r < i+8*n ∧ c < M) ∨
    (∃ r c, e = Acc.wrB r c ∧ r < M ∧ i ≤ c ∧ c < i+8*n) := by
  intro n
  induction n with
  | zero => intro i s e he; exact Or.inl he
  | succ n ih =>
    intro i s e he
    rw [t64Rows_succ] at he
    obtain ⟨q, hq⟩ := h8M
    rcases ih (i+8) _ e he with h | ⟨r, c, rfl, h1, h2, h3⟩ | ⟨r, c, rfl, h1, h2, h3⟩
    · rw [show (M+3)/4 = 2*q from by omega] at h
      rcases t64Cols_bound M N i q 0 s e (by omega) h
        with h | ⟨r, c, rfl, h1, h2, h3, h4⟩ | ⟨r, c, rfl, h1, h2, h3, h4⟩
      · exact Or.inl h
      · exact Or.inr (Or.inl ⟨r, c, rfl, h1, by omega, by omega⟩)
      · exact Or.inr (Or.inr ⟨r, c, rfl, by omega, h3, by omega⟩)
    · exact Or.inr (Or.inl ⟨r, c, rfl, by omega, by omega, h3⟩)
    · exact Or.inr (Or.inr ⟨r, c, rfl, h1, by omega, by omega⟩)

/-- The trace of `t64Run` is the trace of its inner loop nest. -/
lemma t64Run_tr2 (M N : Nat) (s : St) :
    (t64Run M N s).tr = (t64Rows M N ((N+7)/8) 0 ⟨s.a, s.b, 0, 0, 0, 0, s.tr⟩).tr := rfl

/-- Every access of `transpose64x64` on a shape with both sides
multiples of 8 stays inside the declared rectangles. -/
lemma transpose64x64_bound (M N : Nat) (s : St) (h8M : 8 ∣ M) (h8N : 8 ∣ N) :
    ∀ e, e ∈ (transpose64x64 M N s).tr →
    e ∈ s.tr ∨
    (∃ r c, e = Acc.rdA r c ∧ r < N ∧ c < M) ∨
    (∃ r c, e = Acc.wrB r c ∧ r < M ∧ c < N) := by
  intro e he
  rw [show (transpose64x64 M N s).tr = (t64Run M N s).tr from rfl, t64Run_tr2] at he
  obtain ⟨p, hp⟩ := h8N
  rcases t64Rows_bound M N h8M ((N+7)/8) 0 _ e he
    with h | ⟨r, c, rfl, h1, h2, h3⟩ | ⟨r, c, rfl, h1, h2, h3⟩
  · exact Or.inl h
  · exact Or.inr (Or.inl ⟨r, c, rfl, by omega, h3⟩)
  · exact Or.inr (Or.inr ⟨r, c, rfl, h1, by omega⟩)

lemma t32Step_bound (M N i j k : Nat) (s : St) : ∀ e, e ∈ (t32Step M N i j k s).tr →
    e ∈ s.tr ∨
    (∃ r c, e = Acc.rdA r c ∧ r = k ∧ j ≤ c ∧ c < j+8) ∨
    (∃ r c, e = Acc.wrB r c ∧ j ≤ r ∧ r < j+8 ∧ c = k) := by
  intro e he
  simp only [t32Step, List.mem_cons] at he
  rcases he with rfl|rfl|rfl|rfl|rfl|rfl|rfl|rfl|rfl|rfl|rfl|rfl|rfl|rfl|rfl|rfl|he
  all_goals try (exact Or.inr (Or.inl ⟨_, _, rfl, by omega, by omega, by omega⟩))
  all_goals try (exact Or.inr (Or.inr ⟨_, _, rfl, by omega, by omega, by omega⟩))
  exact Or.inl he

lemma t32Block_bound (M N i j : Nat) : ∀ (n k : Nat) (s : St) (e : Acc),
    e ∈ (t32Block M N i j n k s).tr →
    e ∈ s.tr ∨
    (∃ r c, e = Acc.rdA r c ∧ k ≤ r ∧ r < k+n ∧ j ≤ c ∧ c < j+8) ∨
    (∃ r c, e = Acc.wrB r c ∧ j ≤ r ∧ r < j+8 ∧ k ≤ c ∧ c < k+n) := by
  intro n
  induction n with
  | zero => intro k s e he; exact Or.inl he
  | succ n ih =>
    intro k s e he
    rw [t32Block_succ] at he
    rcases ih (k+1) _ e he with h | ⟨r, c, rfl, h1, h2, h3, h4⟩ | ⟨r, c, rfl, h1, h2, h3, h4⟩
    · rcases t32Step_bound M N i j k s e h with h | ⟨r, c, rfl, h1, h2, h3⟩ | ⟨r, c, rfl, h1, h2, h3⟩
      · exact Or.inl h
      · exact Or.inr (Or.inl ⟨r, c, rfl, by omega, by omega, h2, h3⟩)
      · exact Or.inr (Or.inr ⟨r, c, rfl, h1, h2, by omega, by omega⟩)
    · exact Or.inr (Or.inl ⟨r, c, rfl, by omega, by omega, h3, h4⟩)
    · exact Or.inr (Or.inr ⟨r, c, rfl, h1, h2, by omega, by omega⟩)

lemma t32Cols_bound (M N i : Nat) : ∀ (n j : Nat) (s : St) (e : Acc),
    e ∈ (t32Cols M N i n j s).tr →
    e ∈ s.tr ∨
    (∃ r c, e = Acc.rdA r c ∧ i ≤ r ∧ r < i+8 ∧ j ≤ c ∧ c < j+8*n) ∨
    (∃ r c, e = Acc.wrB r c ∧ j ≤ r ∧ r < j+8*n ∧ i ≤ c ∧ c < i+8) := by
  intro n
  induction n with
  | zero => intro j s e he; exact Or.inl he
  | succ n ih =>
    intro j s e he
    rw [t32Cols_succ] at he
    rcases ih (j+8) _ e he with h | ⟨r, c, rfl, h1, h2, h3, h4⟩ | ⟨r, c, rfl, h1, h2, h3, h4⟩
    · rcases t32Block_bound M N i j 8 i s e h with h | ⟨r, c, rfl, h1, h2, h3, h4⟩ | ⟨r, c, rfl, h1, h2, h3, h4⟩
      · exact Or.inl h
      · exact Or.inr (Or.inl ⟨r, c, rfl, h1, h2, h3, by omega⟩)
      · exact Or.inr (Or.inr ⟨r, c, rfl, h1, by omega, h3, h4⟩)
    · exact Or.inr (Or.inl ⟨r, c, rfl, h1, h2, by omega, by omega⟩)
    · exact Or.inr (Or.inr ⟨r, c, rfl, by omega, by omega, h3, h4⟩)

lemma t32Rows_bound (M N : Nat) (h8M : 8 ∣ M) : ∀ (n i : Nat) (s : St) (e : Acc),
    e ∈ (t32Rows M N n i s).tr →
    e ∈ s.tr ∨
    (∃ r c, e = Acc.rdA r c ∧ i ≤ r ∧ r < i+8*n ∧ c < M) ∨
    (∃ r c, e = Acc.wrB r c ∧ r < M ∧ i ≤ c ∧ c < i+8*n) := by
  obtain ⟨q, hq⟩ := h8M
  intro n
  induction n with
  | zero => intro i s e he; exact Or.inl he
  | succ n ih =>
    intro i s e he
    rw [t32Rows_succ] at he
    rcases ih (i+8) _ e he with h | ⟨r, c, rfl, h1, h2, h3⟩ | ⟨r, c, rfl, h1, h2, h3⟩
    · rcases t32Cols_bound M N i ((M+7)/8) 0 s e h
        with h | ⟨r, c, rfl, h1, h2, h3, h4⟩ | ⟨r, c, rfl, h1, h2, h3, h4⟩
      · exact Or.inl h
      · exact Or.inr (Or.inl ⟨r, c, rfl, h1, by omega, by omega⟩)
      · exact Or.inr (Or.inr ⟨r, c, rfl, by omega, h3, by omega⟩)
    · exact Or.inr (Or.inl ⟨r, c, rfl, by omega, by omega, h3⟩)
    · exact Or.inr (Or.inr ⟨r, c, rfl, h1, by omega, by omega⟩)

/-- Every access of `transpose32x32` on a shape with both sides
multiples of 8 stays inside the declared rectangles. -/
lemma transpose32x32_bound (M N : Nat) (s : St) (h8M : 8 ∣ M) (h8N : 8 ∣ N) :
    ∀ e, e ∈ (transpose32x32 M N s).tr →
    e ∈ s.tr ∨
    (∃ r c, e = Acc.rdA r c ∧ r < N ∧ c < M) ∨
    (∃ r c, e = Acc.wrB r c ∧ r < M ∧ c < N) := by
  intro e he
  obtain ⟨p, hp⟩ := h8N
  rcases t32Rows_bound M N h8M ((N+7)/8) 0 s e he
    with h | ⟨r, c, rfl, h1, h2, h3⟩ | ⟨r, c, rfl, h1, h2, h3⟩
  · exact Or.inl h
  · exact Or.inr (Or.inl ⟨r, c, rfl, by omega, h3⟩)
  · exact Or.inr (Or.inr ⟨r, c, rfl, h1, by omega⟩)

lemma t3264Step_bound (M N i j k : Nat) (s : St) : ∀ e, e ∈ (t3264Step M N i j k s).tr →
    e ∈ s.tr ∨
    (∃ r c, e = Acc.rdA r c ∧ r = k ∧ j ≤ c ∧ c < j+4) ∨
    (∃ r c, e = Acc.wrB r c ∧ j ≤ r ∧ r < j+4 ∧ c = k) := by
  intro e he
  simp only [t3264Step, List.mem_cons] at he
  rcases he with rfl|rfl|rfl|rfl|rfl|rfl|rfl|rfl|he
  all_goals try (exact Or.inr (Or.inl ⟨_, _, rfl, by omega, by omega, by omega⟩))
  all_goals try (exact Or.inr (Or.inr ⟨_, _, rfl, by omega, by omega, by omega⟩))
  exact Or.inl he

lemma t3264Asc_bound (M N i j : Nat) : ∀ (n k : Nat) (s : St) (e : Acc),
    e ∈ (t3264Asc M N i j n k s).tr →
    e ∈ s.tr ∨
    (∃ r c, e = Acc.rdA r c ∧ k ≤ r ∧ r < k+n ∧ j ≤ c ∧ c < j+4) ∨
    (∃ r c, e = Acc.wrB r c ∧ j ≤ r ∧ r < j+4 ∧ k ≤ c ∧ c < k+n) := by
  intro n
  induction n with
  | zero => intro k s e he; exact Or.inl he
  | succ n ih =>
    intro k s e he
    rw [t3264Asc_succ] at he
    rcases ih (k+1) _ e he with h | ⟨r, c, rfl, h1, h2, h3, h4⟩ | ⟨r, c, rfl, h1, h2, h3, h4⟩
    · rcases t3264Step_bound M N i j k s e h with h | ⟨r, c, rfl, h1, h2, h3⟩ | ⟨r, c, rfl, h1, h2, h3⟩
      · exact Or.inl h
      · exact Or.inr (Or.inl ⟨r, c, rfl, by omega, by omega, h2, h3⟩)
      · exact Or.inr (Or.inr ⟨r, c, rfl, h1, h2, by omega, by omega⟩)
    · exact Or.inr (Or.inl ⟨r, c, rfl, by omega, by omega, h3, h4⟩)
    · exact Or.inr (Or.inr ⟨r, c, rfl, h1, h2, by omega, by omega⟩)

lemma t3264Desc_bound (M N i j : Nat) : ∀ (n k : Nat) (s : St) (e : Acc),
    e ∈ (t3264Desc M N i j n k s).tr →
    e ∈ s.tr ∨
    (∃ r c, e = Acc.rdA r c ∧ r ≤ k ∧ k+1 ≤ r+n ∧ j ≤ c ∧ c < j+4) ∨
    (∃ r c, e = Acc.wrB r c ∧ j ≤ r ∧ r < j+4 ∧ c ≤ k ∧ k+1 ≤ c+n) := by
  intro n
  induction n with
  | zero => intro k s e he; exact Or.inl he
  | succ n ih =>
    intro k s e he
    rw [t3264Desc_succ] at he
    rcases ih (k-1) _ e he with h | ⟨r, c, rfl, h1, h2, h3, h4⟩ | ⟨r, c, rfl, h1, h2, h3, h4⟩
    · rcases t3264Step_bound M N i j k s e h with h | ⟨r, c, rfl, h1, h2, h3⟩ | ⟨r, c, rfl, h1, h2, h3⟩
      · exact Or.inl h
      · exact Or.inr (Or.inl ⟨r, c, rfl, by omega, by omega, h2, h3⟩)
      · exact Or.inr (Or.inr ⟨r, c, rfl, h1, h2, by omega, by omega⟩)
    · exact Or.inr (Or.inl ⟨r, c, rfl, by omega, by omega, h3, h4⟩)
    · exact Or.inr (Or.inr ⟨r, c, rfl, h1, h2, by omega, by omega⟩)

lemma t3264Stripe_bound (M N i j : Nat) (s : St) : ∀ e, e ∈ (t3264Stripe M N i j s).tr →
    e ∈ s.tr ∨
    (∃ r c, e = Acc.rdA r c ∧ i ≤ r ∧ r < i+8 ∧ j ≤ c ∧ c < j+4) ∨
    (∃ r c, e = Acc.wrB r c ∧ j ≤ r ∧ r < j+4 ∧ i ≤ c ∧ c < i+8) := by
  intro e he
  unfold t3264Stripe at he
  by_cases hp : (j/4) % 2 = 0 <;>
    simp only [hp, ite_true, ite_false, if_true, if_false] at he
  · rcases t3264Asc_bound M N i j 8 i s e he
      with h | ⟨r, c, rfl, h1, h2, h3, h4⟩ | ⟨r, c, rfl, h1, h2, h3, h4⟩
    · exact Or.inl h
    · exact Or.inr (Or.inl ⟨r, c, rfl, h1, h2, h3, h4⟩)
    · exact Or.inr (Or.inr ⟨r, c, rfl, h1, h2, h3, h4⟩)
  · rcases t3264Desc_bound M N i j 8 (i+7) s e he
      with h | ⟨r, c, rfl, h1, h2, h3, h4⟩ | ⟨r, c, rfl, h1, h2, h3, h4⟩
    · exact Or.inl h
    · exact Or.inr (Or.inl ⟨r, c, rfl, by omega, by omega, h3, h4⟩)
    · exact Or.inr (Or.inr ⟨r, c, rfl, h1, h2, by omega, by omega⟩)

lemma t3264Cols_bound (M N i : Nat) : ∀ (n j : Nat) (s : St) (e : Acc),
    e ∈ (t3264Cols M N i n j s).tr →
    e ∈ s.tr ∨
    (∃ r c, e = Acc.rdA r c ∧ i ≤ r ∧ r < i+8 ∧ j ≤ c ∧ c < j+4*n) ∨
    (∃ r c, e = Acc.wrB r c ∧ j ≤ r ∧ r < j+4*n ∧ i ≤ c ∧ c < i+8) := by
  intro n
  induction n with
  | zero => intro j s e he; exact Or.inl he
  | succ n ih =>
    intro j s e he
    rw [t3264Cols_succ] at he
    rcases ih (j+4) _ e he with h | ⟨r, c, rfl, h1, h2, h3, h4⟩ | ⟨r, c, rfl, h1, h2, h3, h4⟩
    · rcases t3264Stripe_bound M N i j s e h
        with h | ⟨r, c, rfl, h1, h2, h3, h4⟩ | ⟨r, c, rfl, h1, h2, h3, h4⟩
      · exact Or.inl h
      · exact Or.inr (Or.inl ⟨r, c, rfl, h1, h2, h3, by omega⟩)
      · exact Or.inr (Or.inr ⟨r, c, rfl, h1, by omega, h3, h4⟩)
    · exact Or.inr (Or.inl ⟨r, c, rfl, h1, h2, by omega, by omega⟩)
    · exact Or.inr (Or.inr ⟨r, c, rfl, by omega, by omega, h3, h4⟩)

lemma t3264Rows_bound (M N : Nat) (h4M : 4 ∣ M) : ∀ (n i : Nat) (s : St) (e : Acc),
    e ∈ (t3264Rows M N n i s).tr →
    e ∈ s.tr ∨
    (∃ r c, e = Acc.rdA r c ∧ i ≤ r ∧ r < i+8*n ∧ c < M) ∨
    (∃ r c, e = Acc.wrB r c ∧ r < M ∧ i ≤ c ∧ c < i+8*n) := by
  obtain ⟨q, hq⟩ := h4M
  intro n
  induction n with
  | zero => intro i s e he; exact Or.inl he
  | succ n ih =>
    intro i s e he
    rw [t3264Rows_succ] at he
    rcases ih (i+8) _ e he with h | ⟨r, c, rfl, h1, h2, h3⟩ | ⟨r, c, rfl, h1, h2, h3⟩
    · rcases t3264Cols_bound M N i ((M+3)/4) 0 s e h
        with h | ⟨r, c, rfl, h1, h2, h3, h4⟩ | ⟨r, c, rfl, h1, h2, h3, h4⟩
      · exact Or.inl h
      · exact Or.inr (Or.inl ⟨r, c, rfl, h1, by omega, by omega⟩)
      · exact Or.inr (Or.inr ⟨r, c, rfl, by omega, h3, by omega⟩)
    · exact Or.inr (Or.inl ⟨r, c, rfl, by omega, by omega, h3⟩)
    · exact Or.inr (Or.inr ⟨r, c, rfl, h1, by omega, by omega⟩)

/-- Every access of `transpose32x64` stays inside the declared
rectangles when `4 ∣ M` and `8 ∣ N`. -/
lemma transpose32x64_bound (M N : Nat) (s : St) (h4M : 4 ∣ M) (h8N : 8 ∣ N) :
    ∀ e, e ∈ (transpose32x64 M N s).tr →
    e ∈ s.tr ∨
    (∃ r c, e = Acc.rdA r c ∧ r < N ∧ c < M) ∨
    (∃ r c, e = Acc.wrB r c ∧ r < M ∧ c < N) := by
  intro e he
  obtain ⟨p, hp⟩ := h8N
  rcases t3264Rows_bound M N h4M ((N+7)/8) 0 s e he
    with h | ⟨r, c, rfl, h1, h2, h3⟩ | ⟨r, c, rfl, h1, h2, h3⟩
  · exact Or.inl h
  · exact Or.inr (Or.inl ⟨r, c, rfl, by omega, h3⟩)
  · exact Or.inr (Or.inr ⟨r, c, rfl, h1, by omega⟩)

/-! ## The oracle `is_transpose` and the dispatcher -/

lemma itRow_iff (M N : Nat) (a b : Nat → Int) (i : Nat) : ∀ (n j : Nat),
    itRow M N a b i n j = true ↔ ∀ t, t < n → a (i*M + (j+t)) = b ((j+t)*N + i) := by
  intro n
  induction n with
  | zero => intro j; simp [itRow]
  | succ n ih =>
    intro j
    simp only [itRow]
    by_cases h : a (i*M + j) = b (j*N + i)
    · rw [if_pos h, ih (j+1)]
      constructor
      · intro hall t ht
        match t with
        | 0 => simpa using h
        | t+1 =>
          have := hall t (by omega)
          have e : j+1+t = j+(t+1) := by omega
          rw [e] at this
          exact this
      · intro hall t ht
        have := hall (t+1) (by omega)
        have e : j+(t+1) = j+1+t := by omega
        rw [e] at this
        exact this
    · rw [if_neg h]
      simp only [Bool.false_eq_true, false_iff]
      intro hall
      have := hall 0 (by omega)
      simp only [Nat.add_zero] at this
      exact h this

lemma itRows_iff (M N : Nat) (a b : Nat → Int) : ∀ (n i : Nat),
    itRows M N a b n i = true ↔
      ∀ r, r < n → ∀ j, j < M → a ((i+r)*M + j) = b (j*N + (i+r)) := by
  intro n
  induction n with
  | zero => intro i; simp [itRows]
  | succ n ih =>
    intro i
    simp only [itRows]
    by_cases h : itRow M N a b i M 0 = true
    · rw [if_pos h, ih (i+1)]
      rw [itRow_iff] at h
      constructor
      · intro hall r hr j hj
        match r with
        | 0 =>
          have := h j hj
          simpa using this
        | r+1 =>
          have := hall r (by omega) j hj
          have e : i+1+r = i+(r+1) := by omega
          rw [e] at this
          exact this
      · intro hall r hr j hj
        have := hall (r+1) (by omega) j hj
        have e : i+(r+1) = i+1+r := by omega
        rw [e] at this
        exact this
    · rw [if_neg h]
      simp only [Bool.false_eq_true, false_iff]
      intro hall
      apply h
      rw [itRow_iff]
      intro t ht
      have := hall 0 (by omega) t ht
      simpa using this

/-- `is_transpose` decides exactly the transpose relation. -/
lemma is_transpose_eq (M N : Nat) (a b : Nat → Int) :
    is_transpose M N a b =
      if ∀ i, i < N → ∀ j, j < M → a (i*M + j) = b (j*N + i) then 1 else 0 := by
  unfold is_transpose
  by_cases h : ∀ i, i < N → ∀ j, j < M → a (i*M + j) = b (j*N + i)
  · rw [if_pos h, if_pos]
    rw [itRows_iff]
    intro r hr j hj
    simpa using h r hr j hj
  · rw [if_neg h, if_neg]
    intro hc
    apply h
    rw [itRows_iff] at hc
    intro i hi j hj
    have := hc i hi j hj
    simpa using this

/-- The dispatcher's three arms. -/
lemma transpose_submit_3232 (s : St) :
    transpose_submit 32 32 s = transpose32x32 32 32 s := by
  simp [transpose_submit]

lemma transpose_submit_3264 (s : St) :
    transpose_submit 32 64 s = transpose32x64 32 64 s := by
  simp [transpose_submit]

lemma transpose_submit_default (M N : Nat) (s : St)
    (h1 : ¬(M = 32 ∧ N = 32)) (h2 : ¬(M = 32 ∧ N = 64)) :
    transpose_submit M N s = transpose64x64 M N s := by
  simp [transpose_submit, h1, h2]

/-! ## The carry discipline of `transpose64x64` (trace facts) -/

/-- Trace of a carry-capturing even-stripe step (`k = i+1`): four block
reads, four speculative reads, four stores. -/
lemma t64StepE_trE (M N i j : Nat) (s : St64) :
    (t64StepE M N i j (i+1) s).tr =
      Acc.wrB (j+3) (i+1) :: Acc.wrB (j+2) (i+1) :: Acc.wrB (j+1) (i+1) ::
      Acc.wrB j (i+1) ::
      Acc.rdA (i+1) (j+7) :: Acc.rdA (i+1) (j+6) :: Acc.rdA (i+1) (j+5) ::
      Acc.rdA (i+1) (j+4) ::
      Acc.rdA (i+1) (j+3) :: Acc.rdA (i+1) (j+2) :: Acc.rdA (i+1) (j+1) ::
      Acc.rdA (i+1) j :: s.tr := by
  simp [t64StepE]

/-- Trace of an ordinary even-stripe step (`k ≠ i+1`). -/
lemma t64StepE_trN (M N i j k : Nat) (hk : ¬k = i+1) (s : St64) :
    (t64StepE M N i j k s).tr =
      Acc.wrB (j+3) k :: Acc.wrB (j+2) k :: Acc.wrB (j+1) k :: Acc.wrB j k ::
      Acc.rdA k (j+3) :: Acc.rdA k (j+2) :: Acc.rdA k (j+1) :: Acc.rdA k j ::
      s.tr := by
  simp [t64StepE, hk]

/-- Trace of the carry-draining odd-stripe step (`k = i+1`): four stores,
no reads. -/
lemma t64StepO_trE (M N i j : Nat) (s : St64) :
    (t64StepO M N i j (i+1) s).tr =
      Acc.wrB (j+3) (i+1) :: Acc.wrB (j+2) (i+1) :: Acc.wrB (j+1) (i+1) ::
      Acc.wrB j (i+1) :: s.tr := by
  simp [t64StepO]

/-- Trace of an ordinary odd-stripe step (`k ≠ i+1`). -/
lemma t64StepO_trN (M N i j k : Nat) (hk : ¬k = i+1) (s : St64) :
    (t64StepO M N i j k s).tr =
      Acc.wrB (j+3) k :: Acc.wrB (j+2) k :: Acc.wrB (j+1) k :: Acc.wrB j k ::
      Acc.rdA k (j+3) :: Acc.rdA k (j+2) :: Acc.rdA k (j+1) :: Acc.rdA k j ::
      s.tr := by
  simp [t64StepO, hk]

/-- The odd-stripe loop leaves the multiplicity of any row-`i+1` read
unchanged: the carry is never re-read from `A`. -/
lemma t64LoopO_count_rd (M N i j c : Nat) : ∀ (n k : Nat) (s : St64),
    List.count (Acc.rdA (i+1) c) (t64LoopO M N i j n k s).tr
      = List.count (Acc.rdA (i+1) c) s.tr := by
  intro n
  induction n with
  | zero => intro k s; rfl
  | succ n ih =>
    intro k s
    rw [t64LoopO_succ, ih (k-1) _]
    by_cases hk : k = i+1
    · subst hk
      rw [t64StepO_trE]
      simp [List.count_cons]
    · rw [t64StepO_trN M N i j k hk s]
      first
      | simp [List.count_cons, hk, Ne.symm hk]
      | (simp [List.count_cons, hk, Ne.symm hk]; split_ifs <;> omega)

set_option maxHeartbeats 2000000 in
/-- The even-stripe loop reads each carry source `A[i+1][c]`
(`c ∈ {j+4,…,j+7}`) exactly once when `i+1` lies in its window. -/
lemma t64LoopE_count_rd (M N i j c : Nat)
    (hc : c = j+4 ∨ c = j+5 ∨ c = j+6 ∨ c = j+7) : ∀ (n k : Nat) (s : St64),
    List.count (Acc.rdA (i+1) c) (t64LoopE M N i j n k s).tr
      = List.count (Acc.rdA (i+1) c) s.tr
        + (if k ≤ i+1 ∧ i+1 < k+n then 1 else 0) := by
  obtain rfl | rfl | rfl | rfl := hc
  all_goals
    intro n
    induction n with
    | zero => intro k s; rw [if_neg (by omega)]; rfl
    | succ n ih =>
      intro k s
      rw [t64LoopE_succ, ih (k+1) _]
      by_cases hk : k = i+1
      · subst hk
        rw [t64StepE_trE]
        first
        | (simp [List.count_cons]; split_ifs <;> omega)
        | (simp [List.count_cons]; omega)
        | simp [List.count_cons]
      · rw [t64StepE_trN M N i j k hk s]
        first
        | (simp [List.count_cons, hk, Ne.symm hk]; split_ifs <;> omega)
        | (simp [List.count_cons, hk, Ne.symm hk]; omega)
        | simp [List.count_cons, hk, Ne.symm hk]

/-- The even-stripe loop never stores to a `B` row at or beyond `j+4`. -/
lemma t64LoopE_count_wr (M N i j r x : Nat) (hr : j+4 ≤ r) :
    ∀ (n k : Nat) (s : St64),
    List.count (Acc.wrB r x) (t64LoopE M N i j n k s).tr
      = List.count (Acc.wrB r x) s.tr := by
  intro n
  induction n with
  | zero => intro k s; rfl
  | succ n ih =>
    intro k s
    rw [t64LoopE_succ, ih (k+1) _]
    by_cases hk : k = i+1
    · subst hk
      rw [t64StepE_trE]
      first
      | (simp [List.count_cons]; split_ifs <;> omega)
      | (simp [List.count_cons]; omega)
      | simp [List.count_cons]
    · rw [t64StepE_trN M N i j k hk s]
      first
      | (simp [List.count_cons]; split_ifs <;> omega)
      | (simp [List.count_cons]; omega)
      | simp [List.count_cons]

set_option maxHeartbeats 2000000 in
/-- The odd-stripe loop stores into each carry target `B[r][i+1]`
(`r ∈ {j,…,j+3}`) exactly once when `i+1` lies in its window. -/
lemma t64LoopO_count_wr (M N i j r : Nat)
    (hr : r = j ∨ r = j+1 ∨ r = j+2 ∨ r = j+3) : ∀ (n k : Nat) (s : St64),
    n ≤ k+1 →
    List.count (Acc.wrB r (i+1)) (t64LoopO M N i j n k s).tr
      = List.count (Acc.wrB r (i+1)) s.tr
        + (if i+1 ≤ k ∧ k < i+1+n then 1 else 0) := by
  obtain h | h | h | h := hr
  all_goals
    subst r
    intro n
    induction n with
    | zero => intro k s _; rw [if_neg (by omega)]; rfl
    | succ n ih =>
      intro k s hn
      rw [t64LoopO_succ, ih (k-1) _ (by omega)]
      by_cases hk : k = i+1
      · subst hk
        rw [t64StepO_trE]
        first
        | (simp [List.count_cons]; split_ifs <;> omega)
        | (simp [List.count_cons]; omega)
        | simp [List.count_cons]
      · rw [t64StepO_trN M N i j k hk s]
        first
        | (simp [List.count_cons, hk, Ne.symm hk]; split_ifs <;> omega)
        | (simp [List.count_cons, hk, Ne.symm hk]; omega)
        | simp [List.count_cons, hk, Ne.symm hk]

set_option maxRecDepth 100000 in
set_option maxHeartbeats 2000000 in
lemma miss3232_e0 : simRun coldCache
    0 ((((t32Cols 32 32 0 4 0 st0).tr.reverse).map (addrOf 32 32)))
    = ([some 224, some 1, some 2, some 3, some 228, some 5, some 6, some 7, some 232, some 9, some 10, some 11, some 236, some 13, some 14, some 15, some 240, some 17, some 18, some 19, some 244, some 21, some 22, some 23, some 248, some 25, some 26, some 27, some 252, some 29, some 30, some 31],
      71) := by rfl

set_option maxRecDepth 100000 in
set_option maxHeartbeats 2000000 in
lemma miss3232_e1 : simRun ([some 224, some 1, some 2, some 3, some 228, some 5, some 6, some 7, some 232, some 9, some 10, some 11, some 236, some 13, some 14, some 15, some 240, some 17, some 18, some 19, some 244, some 21, some 22, some 23, some 248, some 25, some 26, some 27, some 252, some 29, some 30, some 31])
    71 ((((t32Cols 32 32 8 4 0 st0).tr.reverse).map (addrOf 32 32)))
    = ([some 32, some 225, some 34, some 35, some 36, some 229, some 38, some 39, some 40, some 233, some 42, some 43, some 44, some 237, some 46, some 47, some 48, some 241, some 50, some 51, some 52, some 245, some 54, some 55, some 56, some 249, some 58, some 59, some 60, some 253, some 62, some 63],
      142) := by rfl

set_option maxRecDepth 100000 in
set_option maxHeartbeats 2000000 in
lemma miss3232_e2 : simRun ([some 32, some 225, some 34, some 35, some 36, some 229, some 38, some 39, some 40, some 233, some 42, some 43, some 44, some 237, some 46, some 47, some 48, some 241, some 50, some 51, some 52, some 245, some 54, some 55, some 56, some 249, some 58, some 59, some 60, some 253, some 62, some 63])
    142 ((((t32Cols 32 32 16 4 0 st0).tr.reverse).map (addrOf 32 32)))
    = ([some 64, some 65, some 226, some 67, some 68, some 69, some 230, some 71, some 72, some 73, some 234, some 75, some 76, some 77, some 238, some 79, some 80, some 81, some 242, some 83, some 84, some 85, some 246, some 87, some 88, some 89, some 250, some 91, some 92, some 93, some 254, some 95],
      213) := by rfl

set_option maxRecDepth 100000 in
set_option maxHeartbeats 2000000 in
lemma miss3232_e3 : simRun ([some 64, some 65, some 226, some 67, some 68, some 69, some 230, some 71, some 72, some 73, some 234, some 75, some 76, some 77, some 238, some 79, some 80, some 81, some 242, some 83, some 84, some 85, some 246, some 87, some 88, some 89, some 250, some 91, some 92, some 93, some 254, some 95])
    213 ((((t32Cols 32 32 24 4 0 st0).tr.reverse).map (addrOf 32 32)))
    = ([some 96, some 97, some 98, some 227, some 100, some 101, some 102, some 231, some 104, some 105, some 106, some 235, some 108, some 109, some 110, some 239, some 112, some 113, some 114, some 243, some 116, some 117, some 118, some 247, some 120, some 121, some 122, some 251, some 124, some 125, some 126, some 255],
      284) := by rfl

set_option maxRecDepth 100000 in
set_option maxHeartbeats 2000000 in
/-- `transpose32x32` at (32,32) incurs 284 misses. -/
lemma miss3232 : missesOf 32 32 transpose32x32 = 284 := by
  have d1 : (t32Rows 32 32 4 0 st0).tr
      = (t32Rows 32 32 3 8 st0).tr ++ (t32Cols 32 32 0 4 0 st0).tr := by
    rw [t32Rows_succ]; exact t32Rows_tr _ _ _ _ _
  have d2 : (t32Rows 32 32 3 8 st0).tr
      = (t32Rows 32 32 2 16 st0).tr ++ (t32Cols 32 32 8 4 0 st0).tr := by
    rw [t32Rows_succ]; exact t32Rows_tr _ _ _ _ _
  have d3 : (t32Rows 32 32 2 16 st0).tr
      = (t32Rows 32 32 1 24 st0).tr ++ (t32Cols 32 32 16 4 0 st0).tr := by
    rw [t32Rows_succ]; exact t32Rows_tr _ _ _ _ _
  have d4 : (t32Rows 32 32 1 24 st0).tr = (t32Cols 32 32 24 4 0 st0).tr := rfl
  show (simRun coldCache 0 (((transpose32x32 32 32 st0).tr.reverse).map (addrOf 32 32))).2 = 284
  simp only [transpose32x32]
  rw [show ((32:Nat)+7)/8 = 4 from rfl]
  rw [d1, d2, d3, d4]
  simp only [List.reverse_append, List.map_append]
  rw [simRun_append2 _ _ _ _ _ _ miss3232_e0]
  rw [simRun_append2 _ _ _ _ _ _ miss3232_e1]
  rw [simRun_append2 _ _ _ _ _ _ miss3232_e2]
  rw [miss3232_e3]


/-! ## The claims -/

/-- Claim C1: for each supported shape (32,32), (32,64), (64,64), after
`transpose_submit` the output satisfies `B[j][i] = A[i][j]` for every
`i < N`, `j < M`, with `A` as captured on entry. -/
theorem claim_C1 (s : St) :
    (∀ i j : Nat, i < 32 → j < 32 →
      (transpose_submit 32 32 s).b (j*32 + i) = s.a (i*32 + j)) ∧
    (∀ i j : Nat, i < 64 → j < 32 →
      (transpose_submit 32 64 s).b (j*64 + i) = s.a (i*32 + j)) ∧
    (∀ i j : Nat, i < 64 → j < 64 →
      (transpose_submit 64 64 s).b (j*64 + i) = s.a (i*64 + j)) := by
  refine ⟨fun i j hi hj => ?_, fun i j hi hj => ?_, fun i j hi hj => ?_⟩
  · rw [transpose_submit_3232]
    exact transpose32x32_val 32 32 i j s ⟨4, rfl⟩ ⟨4, rfl⟩ hi hj
  · rw [transpose_submit_3264]
    exact transpose32x64_val 32 64 i j s ⟨8, rfl⟩ ⟨8, rfl⟩ hi hj
  · rw [transpose_submit_default 64 64 s (by decide) (by decide)]
    exact transpose64x64_val 64 64 i j s ⟨8, rfl⟩ ⟨8, rfl⟩ hi hj

/-- Claim C2: over one even/odd stripe pair of `transpose64x64`
(`8 ∣ j`, window `i..i+7` inside `N`), the even stripe captures
`A[i+1][j+4..j+7]` into `c4..c7`; the pair stores those values into
`B[j+4..j+7][i+1]` and they equal `A[i+1][j+4..j+7]`; the carry source is
read exactly once (in the even stripe, never re-read in the odd one) and
its target is written exactly once (in the odd stripe, never in the even
one), so the carry is written before it is read, exactly once. -/
theorem claim_C2 (M N i j d : Nat) (s : St64) (h8j : 8 ∣ j) (hiN : i + 8 ≤ N)
    (hd : d < 4) :
    (t64Stripe M N i j s).c4 = s.a ((i+1)*M + (j+4)) ∧
    (t64Stripe M N i j s).c5 = s.a ((i+1)*M + (j+5)) ∧
    (t64Stripe M N i j s).c6 = s.a ((i+1)*M + (j+6)) ∧
    (t64Stripe M N i j s).c7 = s.a ((i+1)*M + (j+7)) ∧
    (t64Stripe M N i (j+4) (t64Stripe M N i j s)).b ((j+4+d)*N + (i+1))
      = s.a ((i+1)*M + (j+4+d)) ∧
    List.count (Acc.rdA (i+1) (j+4+d)) (t64Stripe M N i j s).tr
      = List.count (Acc.rdA (i+1) (j+4+d)) s.tr + 1 ∧
    List.count (Acc.rdA (i+1) (j+4+d))
        (t64Stripe M N i (j+4) (t64Stripe M N i j s)).tr
      = List.count (Acc.rdA (i+1) (j+4+d)) (t64Stripe M N i j s).tr ∧
    List.count (Acc.wrB (j+4+d) (i+1)) (t64Stripe M N i j s).tr
      = List.count (Acc.wrB (j+4+d) (i+1)) s.tr ∧
    List.count (Acc.wrB (j+4+d) (i+1))
        (t64Stripe M N i (j+4) (t64Stripe M N i j s)).tr
      = List.count (Acc.wrB (j+4+d) (i+1)) (t64Stripe M N i j s).tr + 1 := by
  have he : t64Stripe M N i j s = t64LoopE M N i j 8 i s := by
    unfold t64Stripe
    rw [if_pos (parity_even h8j)]
  have ho : ∀ s' : St64,
      t64Stripe M N i (j+4) s' = t64LoopO M N i (j+4) 8 (i+7) s' := by
    intro s'
    unfold t64Stripe
    rw [if_neg (by have := parity_odd h8j; omega)]
  obtain ⟨g4, g5, g6, g7⟩ := t64LoopE_carry M N i j 8 i s (by omega) (by omega)
  refine ⟨by rw [he]; exact g4, by rw [he]; exact g5, by rw [he]; exact g6,
    by rw [he]; exact g7, ?_, ?_, ?_, ?_, ?_⟩
  · have hp := t64Pair_val M N i j (4+d) 1 s h8j hiN (by omega) (by omega)
    rw [show j+(4+d) = j+4+d from by omega] at hp
    exact hp
  · rw [he]
    have hc := t64LoopE_count_rd M N i j (j+4+d) (by omega) 8 i s
    rw [if_pos ⟨by omega, by omega⟩] at hc
    exact hc
  · rw [ho]
    exact t64LoopO_count_rd M N i (j+4) (j+4+d) 8 (i+7) _
  · rw [he]
    exact t64LoopE_count_wr M N i j (j+4+d) (i+1) (by omega) 8 i s
  · rw [ho]
    have hw := t64LoopO_count_wr M N i (j+4) (j+4+d) (by omega) 8 (i+7)
      (t64Stripe M N i j s) (by omega)
    rw [if_pos ⟨by omega, by omega⟩] at hw
    exact hw

/-- Witness for C2 at the stripe pair `(i,j) = (0,0)` of an 8×8 run. -/
theorem claim_C2_witness :
    (t64Stripe 8 8 0 0 c2w).c4 = c2w.a 12 ∧
    (t64Stripe 8 8 0 0 c2w).c5 = c2w.a 13 ∧
    (t64Stripe 8 8 0 0 c2w).c6 = c2w.a 14 ∧
    (t64Stripe 8 8 0 0 c2w).c7 = c2w.a 15 ∧
    (t64Stripe 8 8 0 4 (t64Stripe 8 8 0 0 c2w)).b 33 = c2w.a 12 ∧
    List.count (Acc.rdA 1 4) (t64Stripe 8 8 0 0 c2w).tr
      = List.count (Acc.rdA 1 4) c2w.tr + 1 ∧
    List.count (Acc.rdA 1 4) (t64Stripe 8 8 0 4 (t64Stripe 8 8 0 0 c2w)).tr
      = List.count (Acc.rdA 1 4) (t64Stripe 8 8 0 0 c2w).tr ∧
    List.count (Acc.wrB 4 1) (t64Stripe 8 8 0 0 c2w).tr
      = List.count (Acc.wrB 4 1) c2w.tr ∧
    List.count (Acc.wrB 4 1) (t64Stripe 8 8 0 4 (t64Stripe 8 8 0 0 c2w)).tr
      = List.count (Acc.wrB 4 1) (t64Stripe 8 8 0 0 c2w).tr + 1 :=
  claim_C2 8 8 0 0 0 c2w ⟨0, rfl⟩ (by decide) (by decide)

/-- Claim C3 (amended): the dispatcher is a correct transpose on every
shape whose sides are both multiples of 8 — in particular on every
unrecognized such shape, where it falls through to `transpose64x64`.  The
original claim (every shape, including 2×2) is refuted by
`claim_C3_counterexample`. -/
theorem claim_C3 (M N : Nat) (s : St) (h8M : 8 ∣ M) (h8N : 8 ∣ N)
    (i j : Nat) (hi : i < N) (hj : j < M) :
    (transpose_submit M N s).b (j*N + i) = s.a (i*M + j) := by
  by_cases h1 : M = 32 ∧ N = 32
  · obtain ⟨rfl, rfl⟩ := h1
    rw [transpose_submit_3232]
    exact transpose32x32_val 32 32 i j s ⟨4, rfl⟩ ⟨4, rfl⟩ hi hj
  · by_cases h2 : M = 32 ∧ N = 64
    · obtain ⟨rfl, rfl⟩ := h2
      rw [transpose_submit_3264]
      exact transpose32x64_val 32 64 i j s ⟨8, rfl⟩ ⟨8, rfl⟩ hi hj
    · rw [transpose_submit_default M N s h1 h2]
      exact transpose64x64_val M N i j s h8M h8N hi hj

/-- Witness for C3 on the unrecognized multiple-of-8 shape 16×8. -/
theorem claim_C3_witness :
    (8:Nat) ∣ 16 ∧ (8:Nat) ∣ 8 ∧ 3 < 8 ∧ 9 < 16 ∧
    (transpose_submit 16 8 st0).b (9*8 + 3) = st0.a (3*16 + 9) :=
  ⟨⟨2, rfl⟩, ⟨1, rfl⟩, by decide, by decide,
    claim_C3 16 8 st0 ⟨2, rfl⟩ ⟨1, rfl⟩ 3 9 (by decide) (by decide)⟩

/-- Counterexample to C3 as stated: on the spec's own 2×2 example the
fallback does not produce the transpose — `B[1][0]` ends as `0`, not
`A[0][1] = 2` (the 64×64 routine reads rows `0..7` and the reads beyond
the 2×2 rectangle return junk). -/
theorem claim_C3_counterexample :
    transpose_submit 2 2 s22 = transpose64x64 2 2 s22 ∧
    (transpose_submit 2 2 s22).b (1*2 + 0) = 0 ∧
    s22.a (0*2 + 1) = 2 :=
  ⟨transpose_submit_default 2 2 s22 (by decide) (by decide), by decide, by decide⟩

/-- Claim C4 (amended): on the three recognized shapes every access of
`transpose_submit` is in bounds: each `A`-read lies in the N×M rectangle
and each `B`-write in the M×N rectangle.  The original claim (in bounds on
every shape, including the fallback ones) is refuted by
`claim_C4_counterexample`. -/
theorem claim_C4 (s : St) (e : Acc) :
    (e ∈ (transpose_submit 32 32 s).tr → e ∈ s.tr ∨
      (∃ r c, e = Acc.rdA r c ∧ r < 32 ∧ c < 32) ∨
      (∃ r c, e = Acc.wrB r c ∧ r < 32 ∧ c < 32)) ∧
    (e ∈ (transpose_submit 32 64 s).tr → e ∈ s.tr ∨
      (∃ r c, e = Acc.rdA r c ∧ r < 64 ∧ c < 32) ∨
      (∃ r c, e = Acc.wrB r c ∧ r < 32 ∧ c < 64)) ∧
    (e ∈ (transpose_submit 64 64 s).tr → e ∈ s.tr ∨
      (∃ r c, e = Acc.rdA r c ∧ r < 64 ∧ c < 64) ∨
      (∃ r c, e = Acc.wrB r c ∧ r < 64 ∧ c < 64)) := by
  refine ⟨fun he => ?_, fun he => ?_, fun he => ?_⟩
  · rw [transpose_submit_3232] at he
    exact transpose32x32_bound 32 32 s ⟨4, rfl⟩ ⟨4, rfl⟩ e he
  · rw [transpose_submit_3264] at he
    exact transpose32x64_bound 32 64 s ⟨8, rfl⟩ ⟨8, rfl⟩ e he
  · rw [transpose_submit_default 64 64 s (by decide) (by decide)] at he
    exact transpose64x64_bound 64 64 s ⟨8, rfl⟩ ⟨8, rfl⟩ e he

/-- Counterexample to C4 as stated: on the 2×2 fallback the run reads
`A[7][3]`, far outside the 2×2 rectangle. -/
theorem claim_C4_counterexample :
    Acc.rdA 7 3 ∈ (transpose_submit 2 2 s22).tr ∧ ¬(7 < 2) :=
  ⟨by decide, by decide⟩

/-- Claim C5: on each specialized shape the routine selected by
`transpose_submit` leaves `B` bitwise identical to what the baseline
`trans` produces from the same input. -/
theorem claim_C5 (s : St) :
    (transpose_submit 32 32 s).b = (trans 32 32 s).b ∧
    (transpose_submit 32 64 s).b = (trans 32 64 s).b ∧
    (transpose_submit 64 64 s).b = (trans 64 64 s).b := by
  refine ⟨funext fun m => ?_, funext fun m => ?_, funext fun m => ?_⟩
  · rw [transpose_submit_3232]
    by_cases hm : ∃ i, i < 32 ∧ ∃ c, c < 32 ∧ m = c*32 + i
    · obtain ⟨i, hi, c, hc, rfl⟩ := hm
      rw [transpose32x32_val 32 32 i c s ⟨4, rfl⟩ ⟨4, rfl⟩ hi hc,
        trans_val 32 32 i c s hi hc]
    · push_neg at hm
      have h1 : (transpose32x32 32 32 s).b m = s.b m := by
        unfold transpose32x32
        exact t32Rows_frame 32 32 ⟨4, rfl⟩ ((32+7)/8) 0 s m
          (fun k _ hk c hc => hm k (by omega) c hc)
      have h2 : (trans 32 32 s).b m = s.b m :=
        trans_frame 32 32 s m hm
      rw [h1, h2]
  · rw [transpose_submit_3264]
    by_cases hm : ∃ i, i < 64 ∧ ∃ c, c < 32 ∧ m = c*64 + i
    · obtain ⟨i, hi, c, hc, rfl⟩ := hm
      rw [transpose32x64_val 32 64 i c s ⟨8, rfl⟩ ⟨8, rfl⟩ hi hc,
        trans_val 32 64 i c s hi hc]
    · push_neg at hm
      have h1 : (transpose32x64 32 64 s).b m = s.b m := by
        unfold transpose32x64
        exact t3264Rows_frame 32 64 ⟨8, rfl⟩ ((64+7)/8) 0 s m
          (fun k _ hk c hc => hm k (by omega) c hc)
      have h2 : (trans 32 64 s).b m = s.b m :=
        trans_frame 32 64 s m hm
      rw [h1, h2]
  · rw [transpose_submit_default 64 64 s (by decide) (by decide)]
    by_cases hm : ∃ i, i < 64 ∧ ∃ c, c < 64 ∧ m = c*64 + i
    · obtain ⟨i, hi, c, hc, rfl⟩ := hm
      rw [transpose64x64_val 64 64 i c s ⟨8, rfl⟩ ⟨8, rfl⟩ hi hc,
        trans_val 64 64 i c s hi hc]
    · push_neg at hm
      have h1 : (transpose64x64 64 64 s).b m = s.b m := by
        rw [show transpose64x64 64 64 s = t64Run 64 64 s from rfl, t64Run_b]
        exact t64Rows_frame 64 64 ⟨8, rfl⟩ ((64+7)/8) 0 _ m
          (fun k _ hk c hc => hm k (by omega) c hc)
      have h2 : (trans 64 64 s).b m = s.b m :=
        trans_frame 64 64 s m hm
      rw [h1, h2]

/-- Claim C6: `transpose_submit` dispatches by exact shape match —
(32,32) to `transpose32x32`, (32,64) to `transpose32x64`, and every other
shape (64×64 included) to `transpose64x64`. -/
theorem claim_C6 (M N : Nat) (s : St) :
    ((M = 32 ∧ N = 32) → transpose_submit M N s = transpose32x32 M N s) ∧
    ((M = 32 ∧ N = 64) → transpose_submit M N s = transpose32x64 M N s) ∧
    (¬(M = 32 ∧ N = 32) → ¬(M = 32 ∧ N = 64) →
      transpose_submit M N s = transpose64x64 M N s) := by
  refine ⟨?_, ?_, ?_⟩
  · rintro ⟨rfl, rfl⟩
    exact transpose_submit_3232 s
  · rintro ⟨rfl, rfl⟩
    exact transpose_submit_3264 s
  · intro h1 h2
    exact transpose_submit_default M N s h1 h2

/-- Claim C7: no transpose routine writes to `A` — on every shape and
input, `A` after the call equals `A` on entry. -/
theorem claim_C7 (M N : Nat) (s : St) :
    (transpose_submit M N s).a = s.a ∧ (trans M N s).a = s.a ∧
    (transpose32x32 M N s).a = s.a ∧ (transpose32x64 M N s).a = s.a ∧
    (transpose64x64 M N s).a = s.a ∧ (test M N s).a = s.a := by
  refine ⟨?_, trans_a M N s, transpose32x32_a M N s, transpose32x64_a M N s,
    transpose64x64_a M N s, test_a M N s⟩
  unfold transpose_submit
  split_ifs
  · exact transpose32x32_a M N s
  · exact transpose32x64_a M N s
  · exact transpose64x64_a M N s

/-- Claim C8: `is_transpose` returns 1 when `A[i][j] = B[j][i]` holds for
every `i < N`, `j < M`, and 0 otherwise.  (In the embedding it is a pure
function of the two buffers, so it modifies neither.) -/
theorem claim_C8 (M N : Nat) (a b : Nat → Int) :
    ((∀ i, i < N → ∀ j, j < M → a (i*M + j) = b (j*N + i)) →
      is_transpose M N a b = 1) ∧
    ((¬ ∀ i, i < N → ∀ j, j < M → a (i*M + j) = b (j*N + i)) →
      is_transpose M N a b = 0) := by
  constructor <;> intro h <;> rw [is_transpose_eq]
  · rw [if_pos h]
  · rw [if_neg h]

/-- Claim C9 (amended): the exact cold-cache miss counts are 284 on
32×32, 600 on 32×64 and 1352 on 64×64, against 4720 for the baseline
`trans` on 64×64; so 32×32 meets its budget and the 64×64 speedup is
between 3× and 4×.  The original budgets are refuted by
`claim_C9_counterexample`. -/
theorem claim_C9 :
    missesOf 32 32 transpose32x32 = 284 ∧
    missesOf 32 64 transpose32x64 = 600 ∧
    missesOf 64 64 transpose64x64 = 1352 ∧
    missesOf 64 64 trans = 4720 ∧
    missesOf 32 32 transpose32x32 < 300 ∧
    missesOf 64 64 trans < 4 * missesOf 64 64 transpose64x64 ∧
    3 * missesOf 64 64 transpose64x64 < missesOf 64 64 trans := by
  refine ⟨miss3232, miss3264, miss6464, missTrans64, ?_, ?_, ?_⟩
  · rw [miss3232]
    decide
  · rw [missTrans64, miss6464]
    decide
  · rw [miss6464, missTrans64]
    decide

/-- Counterexample to C9 as stated: 32×64 takes 600 misses (not fewer
than 300), 64×64 takes 1352 (not fewer than 1300), and the 64×64 speedup
over the baseline is below 4×. -/
theorem claim_C9_counterexample :
    ¬(missesOf 32 32 transpose32x32 < 300 ∧
      missesOf 32 64 transpose32x64 < 300 ∧
      missesOf 64 64 transpose64x64 < 1300 ∧
      4 * missesOf 64 64 transpose64x64 < missesOf 64 64 trans) := by
  intro h
  rw [miss3264] at h
  exact absurd h.2.1 (by decide)

/-- Claim C10: on every shape whose sides are positive multiples of 8,
`transpose64x64` computes a complete correct transpose with every access
inside the declared rectangles — so the dispatcher's fallback is correct
on any such shape. -/
theorem claim_C10 (M N : Nat) (s : St) (h8M : 8 ∣ M) (h8N : 8 ∣ N)
    (hM : 0 < M) (hN : 0 < N) :
    (∀ i j : Nat, i < N → j < M →
      (transpose64x64 M N s).b (j*N + i) = s.a (i*M + j)) ∧
    (∀ e, e ∈ (transpose64x64 M N s).tr → e ∈ s.tr ∨
      (∃ r c, e = Acc.rdA r c ∧ r < N ∧ c < M) ∨
      (∃ r c, e = Acc.wrB r c ∧ r < M ∧ c < N)) ∧
    (¬(M = 32 ∧ N = 32) → ¬(M = 32 ∧ N = 64) →
      transpose_submit M N s = transpose64x64 M N s) :=
  ⟨fun i j hi hj => transpose64x64_val M N i j s h8M h8N hi hj,
    transpose64x64_bound M N s h8M h8N,
    fun h1 h2 => transpose_submit_default M N s h1 h2⟩

/-- Witness for C10 on the 8×8 shape. -/
theorem claim_C10_witness :
    (∀ i j : Nat, i < 8 → j < 8 →
      (transpose64x64 8 8 st0).b (j*8 + i) = st0.a (i*8 + j)) ∧
    (∀ e, e ∈ (transpose64x64 8 8 st0).tr → e ∈ st0.tr ∨
      (∃ r c, e = Acc.rdA r c ∧ r < 8 ∧ c < 8) ∨
      (∃ r c, e = Acc.wrB r c ∧ r < 8 ∧ c < 8)) ∧
    (¬((8:Nat) = 32 ∧ (8:Nat) = 32) → ¬((8:Nat) = 32 ∧ (8:Nat) = 64) →
      transpose_submit 8 8 st0 = transpose64x64 8 8 st0) :=
  claim_C10 8 8 st0 ⟨1, rfl⟩ ⟨1, rfl⟩ (by decide) (by decide)

end TransC
